import Mathlib

/-!
# Complaint-tracking browser client: token store, JWT decoder and API client

A shallow embedding of `frentend/js/lib/auth.js`, `frentend/js/lib/api.js` and the
parts of `frentend/js/home.js` and `frentend/js/complaint_details.js` that render
controls and start timers.

* JavaScript strings are lists of UTF-16 code units (`JsString`), so `length`,
  `split` and `replace` count and compare code units exactly as the engine does.
* A JavaScript computation that may throw is a value of `Except JsError α`;
  `try { .. } catch (e) { .. }` is `tryCatch`.
* The browser built-ins the code calls (`atob`, `JSON.parse`, `JSON.stringify`,
  `URLSearchParams`, `localStorage`, `fetch`) are modelled after their
  specifications (WHATWG Infra / URL / Fetch, ECMA-262, ECMA-404).
  `fetch` is the network: it is a parameter of every operation that uses it.
-/

namespace Complaints

/-! ## Strings -/

/-- A JavaScript string: a sequence of UTF-16 code units. -/
abbrev JsString := List Nat

/-- The UTF-16 code units of one Unicode scalar value. -/
def utf16Units (c : Char) : List Nat :=
  if c.toNat < 65536 then [c.toNat]
  else [55296 + (c.toNat - 65536) / 1024, 56320 + (c.toNat - 65536) % 1024]

/-- A string literal of the source, as code units. -/
def js (s : String) : JsString :=
  (s.toList.map utf16Units).flatten

/-- `String.prototype.split(sep)` for a one-code-unit separator. -/
def split (sep : Nat) : JsString → List JsString
  | [] => [[]]
  | c :: cs =>
    if c = sep then [] :: split sep cs
    else
      match split sep cs with
      | [] => [[c]]
      | p :: ps => (c :: p) :: ps

/-- `s.replace(/x/g, y)` for one-code-unit `x` and `y`. -/
def replaceAll (x y : Nat) (s : JsString) : JsString :=
  s.map (fun c => if c = x then y else c)

/-- `str.repeat(n)`. -/
def strRepeat (s : JsString) : Nat → JsString
  | 0 => []
  | n + 1 => s ++ strRepeat s n

/-! ## JSON values and errors -/

/-- A value of the JSON data model, as `JSON.parse` produces it. A number is kept
as the exact decimal `mantissa * 10 ^ exponent` its literal denotes; the rounding
to an IEEE-754 double that the engine performs is not modelled. An object is the
list of its own properties in creation order. -/
inductive Json where
  | null
  | bool (b : Bool)
  | num (mantissa : Int) (exponent : Int)
  | str (s : JsString)
  | arr (items : List Json)
  | obj (members : List (JsString × Json))

/-- What a JavaScript computation can throw in this program. `error` is an
`Error` object built by `new Error(m)`: `message` is the constructor argument
(the engine stores `ToString(m)`, which is `m` itself when `m` is a string);
`status` and `body` are the extra fields `request` assigns, absent otherwise. -/
inductive JsError where
  | typeError
  | syntaxError
  | invalidCharacterError
  | networkError
  | error (message : Json) (status : Option Nat) (body : Option Json)

/-- The statement `try { body } catch (e) { handler(e) }`. -/
def tryCatch {α : Type} (body : Except JsError α) (handler : JsError → Except JsError α) :
    Except JsError α :=
  match body with
  | .ok v => .ok v
  | .error e => handler e

/-! ## `atob`: forgiving-base64 decode (WHATWG Infra) -/

/-- ASCII whitespace: TAB, LF, FF, CR, SPACE. -/
def isAsciiWhitespace (c : Nat) : Bool :=
  c = 9 || c = 10 || c = 12 || c = 13 || c = 32

/-- Position of a code unit in the base64 alphabet `A-Z a-z 0-9 + /`. -/
def base64Index (c : Nat) : Option Nat :=
  if 65 ≤ c ∧ c ≤ 90 then some (c - 65)
  else if 97 ≤ c ∧ c ≤ 122 then some (c - 71)
  else if 48 ≤ c ∧ c ≤ 57 then some (c + 4)
  else if c = 43 then some 62
  else if c = 47 then some 63
  else none

/-- Step 2 of forgiving-base64 decode: when the length is a multiple of 4, one
or two trailing `=` are removed. -/
def stripPadding (data : JsString) : JsString :=
  if data.length % 4 = 0 then
    match data.reverse with
    | a :: b :: r =>
      if a = 61 then (if b = 61 then r.reverse else (b :: r).reverse) else data
    | [a] => if a = 61 then [] else data
    | [] => data
  else data

/-- The alphabet positions of a whole string, or `none` when some code unit is
outside the alphabet. -/
def sextets : JsString → Option (List Nat)
  | [] => some []
  | c :: cs =>
    match base64Index c, sextets cs with
    | some i, some is => some (i :: is)
    | _, _ => none

/-- The bytes carried by a run of 6-bit groups: 24 bits give three bytes; a
final 12 bits give one byte and a final 18 bits give two, the spare low bits
being discarded. -/
def decodeSextets : List Nat → List Nat
  | a :: b :: c :: d :: rest =>
    (a * 4 + b / 16) :: ((b % 16) * 16 + c / 4) :: ((c % 4) * 64 + d) :: decodeSextets rest
  | [a, b, c] => [a * 4 + b / 16, (b % 16) * 16 + c / 4]
  | [a, b] => [a * 4 + b / 16]
  | _ => []

/-- The built-in `atob(data)`: the decoded bytes as a string with one code unit
per byte, or an `InvalidCharacterError`. -/
def atob (data : JsString) : Except JsError JsString :=
  let d := stripPadding (data.filter (fun c => !isAsciiWhitespace c))
  if d.length % 4 = 1 then .error .invalidCharacterError
  else
    match sextets d with
    | none => .error .invalidCharacterError
    | some sx => .ok (decodeSextets sx)

/-! ## `JSON.parse` (ECMA-404 grammar, ECMA-262 object construction) -/

/-- JSON whitespace: TAB, LF, CR, SPACE. -/
def isJsonWhitespace (c : Nat) : Bool :=
  c = 9 || c = 10 || c = 13 || c = 32

/-- Drop leading JSON whitespace. -/
def skipWs : JsString → JsString
  | [] => []
  | c :: cs => if isJsonWhitespace c then skipWs cs else c :: cs

/-- Value of a hexadecimal digit. -/
def hexVal (c : Nat) : Option Nat :=
  if 48 ≤ c ∧ c ≤ 57 then some (c - 48)
  else if 97 ≤ c ∧ c ≤ 102 then some (c - 87)
  else if 65 ≤ c ∧ c ≤ 70 then some (c - 55)
  else none

/-- The code unit a one-letter escape `\c` stands for. -/
def simpleEscape (c : Nat) : Option Nat :=
  if c = 34 then some 34
  else if c = 92 then some 92
  else if c = 47 then some 47
  else if c = 98 then some 8
  else if c = 102 then some 12
  else if c = 110 then some 10
  else if c = 114 then some 13
  else if c = 116 then some 9
  else none

/-- The characters of a string literal after its opening quote, up to and
including the closing quote: the string's value and the rest of the input. -/
def parseStringBody : JsString → Option (JsString × JsString)
  | [] => none
  | c :: rest =>
    if c = 34 then some ([], rest)
    else if c = 92 then
      match rest with
      | [] => none
      | e :: r =>
        if e = 117 then
          match r with
          | h1 :: h2 :: h3 :: h4 :: r2 =>
            match hexVal h1, hexVal h2, hexVal h3, hexVal h4, parseStringBody r2 with
            | some a, some b, some c, some d, some (s, out) =>
              some ((a * 4096 + b * 256 + c * 16 + d) :: s, out)
            | _, _, _, _, _ => none
          | _ => none
        else
          match simpleEscape e, parseStringBody r with
          | some u, some (s, out) => some (u :: s, out)
          | _, _ => none
    else if c < 32 then none
    else
      match parseStringBody rest with
      | some (s, out) => some (c :: s, out)
      | none => none

/-- What the string parser makes of one more code unit in front. -/
def consUnit (c : Nat) (r : Option (JsString × JsString)) : Option (JsString × JsString) :=
  match r with
  | some (s, out) => some (c :: s, out)
  | none => none

/-- Split off the leading run of decimal digits. -/
def takeDigits : JsString → List Nat × JsString
  | [] => ([], [])
  | c :: cs =>
    if 48 ≤ c ∧ c ≤ 57 then ((c - 48) :: (takeDigits cs).1, (takeDigits cs).2)
    else ([], c :: cs)

/-- The natural number written by a list of decimal digits. -/
def digitsValue (ds : List Nat) : Nat :=
  ds.foldl (fun acc d => acc * 10 + d) 0

/-- The optional exponent part `e`/`E`, sign, digits. -/
def parseExponent (input : JsString) : Option (Int × JsString) :=
  match input with
  | c :: rest =>
    if c = 101 ∨ c = 69 then
      match rest with
      | s :: rest2 =>
        if s = 43 then
          match takeDigits rest2 with
          | ([], _) => none
          | (ds, out) => some ((digitsValue ds : Int), out)
        else if s = 45 then
          match takeDigits rest2 with
          | ([], _) => none
          | (ds, out) => some (-(digitsValue ds : Int), out)
        else
          match takeDigits rest with
          | ([], _) => none
          | (ds, out) => some ((digitsValue ds : Int), out)
      | [] => none
    else some (0, input)
  | [] => some (0, input)

/-- The optional fraction part `.` digits: the digits and the rest. -/
def parseFraction (input : JsString) : Option (List Nat × JsString) :=
  match input with
  | c :: rest =>
    if c = 46 then
      match takeDigits rest with
      | ([], _) => none
      | (ds, out) => some (ds, out)
    else some ([], input)
  | [] => some ([], input)

/-- A number literal without its sign: integer part (`0`, or digits not starting
with `0`), optional fraction, optional exponent. -/
def parseUnsigned (input : JsString) : Option ((Nat × Int) × JsString) :=
  match takeDigits input with
  | ([], _) => none
  | (d :: ds, afterInt) =>
    if d = 0 ∧ ds ≠ [] then none
    else
      match parseFraction afterInt with
      | none => none
      | some (fs, afterFrac) =>
        match parseExponent afterFrac with
        | none => none
        | some (e, out) => some ((digitsValue (d :: ds ++ fs), e - (fs.length : Int)), out)

/-- A number literal. -/
def parseNumber (input : JsString) : Option (Json × JsString) :=
  match input with
  | c :: rest =>
    if c = 45 then
      match parseUnsigned rest with
      | some ((m, e), out) => some (.num (-(m : Int)) e, out)
      | none => none
    else
      match parseUnsigned input with
      | some ((m, e), out) => some (.num (m : Int) e, out)
      | none => none
  | [] => none

/-- Assigning `obj[key] = value` on a plain object (`CreateDataProperty` in
`JSON.parse`): a key already present keeps its place and takes the new value, a
new key is added last. -/
def setProp {α : Type} (key : JsString) (value : α) : List (JsString × α) → List (JsString × α)
  | [] => [(key, value)]
  | (k, v) :: ms => if k = key then (k, value) :: ms else (k, v) :: setProp key value ms

/-- Match a fixed keyword at the head of the input. -/
def expectWord (word : JsString) (input : JsString) : Option JsString :=
  if word.isPrefixOf input then some (input.drop word.length) else none

mutual
/-- One JSON value, after optional whitespace. The first argument bounds the
number of nested calls. -/
def parseValue : Nat → JsString → Option (Json × JsString)
  | 0, _ => none
  | fuel + 1, input =>
    match skipWs input with
    | [] => none
    | c :: rest =>
      if c = 123 then
        match skipWs rest with
        | d :: rest2 => if d = 125 then some (.obj [], rest2) else parseMembers fuel (d :: rest2) []
        | [] => none
      else if c = 91 then
        match skipWs rest with
        | d :: rest2 => if d = 93 then some (.arr [], rest2) else parseElements fuel (d :: rest2) []
        | [] => none
      else if c = 34 then
        match parseStringBody rest with
        | some (s, out) => some (.str s, out)
        | none => none
      else if c = 116 then (expectWord (js "true") (c :: rest)).map (fun out => (.bool true, out))
      else if c = 102 then (expectWord (js "false") (c :: rest)).map (fun out => (.bool false, out))
      else if c = 110 then (expectWord (js "null") (c :: rest)).map (fun out => (.null, out))
      else parseNumber (c :: rest)
/-- The elements of a non-empty array, up to and including the closing bracket. -/
def parseElements : Nat → JsString → List Json → Option (Json × JsString)
  | 0, _, _ => none
  | fuel + 1, input, acc =>
    match parseValue fuel input with
    | none => none
    | some (v, out) =>
      match skipWs out with
      | c :: rest =>
        if c = 44 then parseElements fuel rest (acc ++ [v])
        else if c = 93 then some (.arr (acc ++ [v]), rest)
        else none
      | [] => none
/-- The members of a non-empty object, up to and including the closing brace. -/
def parseMembers : Nat → JsString → List (JsString × Json) → Option (Json × JsString)
  | 0, _, _ => none
  | fuel + 1, input, acc =>
    match skipWs input with
    | q :: afterQuote =>
      if q = 34 then
        match parseStringBody afterQuote with
        | none => none
        | some (key, afterKey) =>
          match skipWs afterKey with
          | colon :: afterColon =>
            if colon = 58 then
              match parseValue fuel afterColon with
              | none => none
              | some (v, out) =>
                match skipWs out with
                | c :: rest =>
                  if c = 44 then parseMembers fuel rest (setProp key v acc)
                  else if c = 125 then some (.obj (setProp key v acc), rest)
                  else none
                | [] => none
            else none
          | [] => none
      else none
    | [] => none
end

/-- The built-in `JSON.parse(text)`: the value the text denotes, or a
`SyntaxError`. Every nested call of the parser consumes input at least every
second step, so twice the length of the text bounds the nesting. -/
def JSONparse (text : JsString) : Except JsError Json :=
  match parseValue (2 * text.length + 2) text with
  | some (v, out) => if skipWs out = [] then .ok v else .error .syntaxError
  | none => .error .syntaxError

/-! ## base64url encoding (RFC 4648, section 5): how a token's middle segment is made -/

/-- The URL-safe alphabet `A-Z a-z 0-9 - _`. -/
def base64urlChar (i : Nat) : Nat :=
  if i < 26 then 65 + i
  else if i < 52 then 71 + i
  else if i < 62 then i - 4
  else if i = 62 then 45
  else 95

/-- The base64url text of a byte sequence, with `=` padding. -/
def base64url : List Nat → JsString
  | a :: b :: c :: rest =>
    base64urlChar (a / 4) :: base64urlChar ((a % 4) * 16 + b / 16) ::
      base64urlChar ((b % 16) * 4 + c / 64) :: base64urlChar (c % 64) :: base64url rest
  | [a, b] =>
    [base64urlChar (a / 4), base64urlChar ((a % 4) * 16 + b / 16), base64urlChar ((b % 16) * 4), 61]
  | [a] => [base64urlChar (a / 4), base64urlChar ((a % 4) * 16), 61, 61]
  | [] => []

/-- The base64url text of a byte sequence with the `=` padding stripped, as a
JWT carries it. -/
def base64urlUnpadded (bytes : List Nat) : JsString :=
  (base64url bytes).filter (fun c => c ≠ 61)

/-- Position `i` of the standard alphabet `A-Z a-z 0-9 + /`, the inverse of
`base64Index`. -/
def base64Char (i : Nat) : Nat :=
  if i < 26 then 65 + i
  else if i < 52 then 71 + i
  else if i < 62 then i - 4
  else if i = 62 then 43
  else 47

/-- The 6-bit groups base64 cuts a byte sequence into; a final group is filled
up with zero bits. -/
def sextetsOf : List Nat → List Nat
  | a :: b :: c :: rest =>
    (a / 4) :: ((a % 4) * 16 + b / 16) :: ((b % 16) * 4 + c / 64) :: (c % 64) :: sextetsOf rest
  | [a, b] => [a / 4, (a % 4) * 16 + b / 16, (b % 16) * 4]
  | [a] => [a / 4, (a % 4) * 16]
  | [] => []

/-- The number of `=` that pad the base64 text of a byte sequence. -/
def padCount (bytes : List Nat) : Nat :=
  (3 - bytes.length % 3) % 3

/-! ## `localStorage` -/

/-- The contents of `localStorage`: keys with their string values. -/
abbrev Storage := List (JsString × JsString)

/-- `localStorage.getItem(key)`; `none` is `null`. -/
def Storage.getItem (ls : Storage) (key : JsString) : Option JsString :=
  match ls with
  | [] => none
  | (k, v) :: rest => if k = key then some v else Storage.getItem rest key

/-- `localStorage.removeItem(key)`. -/
def Storage.removeItem (ls : Storage) (key : JsString) : Storage :=
  ls.filter (fun kv => kv.1 ≠ key)

/-- `localStorage.setItem(key, value)` for a string `value`. -/
def Storage.setItem (ls : Storage) (key value : JsString) : Storage :=
  setProp key value ls

/-- `ToBoolean` of a value that is a string, `null` or `undefined`: only a
non-empty string is truthy. -/
def truthy (v : Option JsString) : Bool :=
  match v with
  | none => false
  | some [] => false
  | some (_ :: _) => true

/-- `ToBoolean` of a JSON value (a number is falsy when it is zero). -/
def Json.truthy : Json → Bool
  | .null => false
  | .bool b => b
  | .num m _ => m ≠ 0
  | .str s => s ≠ []
  | .arr _ => true
  | .obj _ => true

/-! ## auth.js -/

namespace Auth

/-- The function `saveToken(token)`. -/
def saveToken (ls : Storage) (token : JsString) : Storage :=
  ls.setItem (js "access_token") token

/-- The function `getToken()`. -/
def getToken (ls : Storage) : Option JsString :=
  ls.getItem (js "access_token")

/-- The function `removeToken()`. -/
def removeToken (ls : Storage) : Storage :=
  ls.removeItem (js "access_token")

/-- The string `padded` that `parseJwt` computes from the middle segment
`payload` and hands to `atob`. -/
def padded (payload : JsString) : JsString :=
  let b64 := replaceAll 95 47 (replaceAll 45 43 payload)
  b64 ++ strRepeat (js "=") ((4 - b64.length % 4) % 4)

/-- The function `parseJwt(token)`; the token `none` is `null`, the result
`Json.null` is `null`. -/
def parseJwt (token : Option JsString) : Except JsError Json :=
  if !truthy token then .ok .null
  else
    tryCatch
      (let parts := split 46 (token.getD [])
       if parts.length ≠ 3 then .ok .null
       else
         let payload := parts.getD 1 []
         match atob (padded payload) with
         | .error e => .error e
         | .ok json => JSONparse json)
      (fun _ => .ok .null)

end Auth

/-! ## `fetch`, `URLSearchParams`, `JSON.stringify` -/

/-- A plain object used as a header map. -/
abbrev Headers := List (JsString × JsString)

/-- The `options` argument of `request`: its `method`, `body` and `headers`
properties, `none` when the property is absent (`undefined`). -/
structure RequestOptions where
  method : Option JsString := none
  body : Option JsString := none
  headers : Option Headers := none

/-- The second argument of `fetch`, as `request` builds it. -/
structure FetchInit where
  method : Option JsString
  body : Option JsString
  headers : Headers

/-- A response as `request` observes it: status code, status text, and the body
decoded as text. -/
structure Response where
  status : Nat
  statusText : JsString
  body : JsString

/-- The getter `res.ok`. -/
def Response.ok (res : Response) : Bool :=
  200 ≤ res.status && res.status ≤ 299

/-- The method `res.text()`. -/
def Response.text (res : Response) : Except JsError JsString :=
  .ok res.body

/-- The method `res.json()`: the body parsed as JSON, rejecting with a
`SyntaxError` when it is not JSON. -/
def Response.json (res : Response) : Except JsError Json :=
  JSONparse res.body

/-- The network: what `fetch(url, init)` settles to. -/
abbrev Fetch := JsString → FetchInit → Except JsError Response

/-- Reading `value.detail`, a property no prototype defines: a `TypeError` on
`null`, the own property of an object, `undefined` (`none`) otherwise. -/
def getDetail (value : Json) : Except JsError (Option Json) :=
  match value with
  | .null => .error .typeError
  | .obj members => .ok (members.lookup (js "detail"))
  | _ => .ok none

/-- The expression `a || b` where `a` may be `undefined`. -/
def orElse (a : Option Json) (b : Json) : Json :=
  match a with
  | none => b
  | some v => if v.truthy then v else b

/-- Is the code unit a high (leading) surrogate? -/
def isHighSurrogate (c : Nat) : Bool := 55296 ≤ c && c ≤ 56319

/-- Is the code unit a low (trailing) surrogate? -/
def isLowSurrogate (c : Nat) : Bool := 56320 ≤ c && c ≤ 57343

/-- Conversion to scalar values (WebIDL `USVString`): a surrogate pair is one
scalar value, a lone surrogate becomes U+FFFD. -/
def scalarValues : JsString → List Nat
  | [] => []
  | [c] => if isHighSurrogate c || isLowSurrogate c then [65533] else [c]
  | c :: d :: rest =>
    if isHighSurrogate c && isLowSurrogate d then
      (65536 + (c - 55296) * 1024 + (d - 56320)) :: scalarValues rest
    else if isHighSurrogate c || isLowSurrogate c then 65533 :: scalarValues (d :: rest)
    else c :: scalarValues (d :: rest)

/-- UTF-8 bytes of one scalar value. -/
def utf8Bytes (v : Nat) : List Nat :=
  if v < 128 then [v]
  else if v < 2048 then [192 + v / 64, 128 + v % 64]
  else if v < 65536 then [224 + v / 4096, 128 + v / 64 % 64, 128 + v % 64]
  else [240 + v / 262144, 128 + v / 4096 % 64, 128 + v / 64 % 64, 128 + v % 64]

/-- UTF-8 encoding of a string. -/
def utf8Encode (s : JsString) : List Nat :=
  ((scalarValues s).map utf8Bytes).flatten

/-- An upper-case hexadecimal digit. -/
def hexDigitUpper (n : Nat) : Nat := if n < 10 then 48 + n else 55 + n

/-- A lower-case hexadecimal digit. -/
def hexDigitLower (n : Nat) : Nat := if n < 10 then 48 + n else 87 + n

/-- Bytes the `application/x-www-form-urlencoded` serializer leaves as they are:
ASCII letters and digits, `*`, `-`, `.`, `_`. -/
def isUrlencodedSafe (b : Nat) : Bool :=
  (48 ≤ b && b ≤ 57) || (65 ≤ b && b ≤ 90) || (97 ≤ b && b ≤ 122) ||
    b = 42 || b = 45 || b = 46 || b = 95

/-- One byte of a name or value in `application/x-www-form-urlencoded` form:
a space is `+`, a safe byte is itself, any other byte is `%XX`. -/
def urlencodeByte (b : Nat) : JsString :=
  if b = 32 then [43]
  else if isUrlencodedSafe b then [b]
  else [37, hexDigitUpper (b / 16), hexDigitUpper (b % 16)]

/-- A name or value in `application/x-www-form-urlencoded` form. -/
def urlencode (s : JsString) : JsString :=
  ((utf8Encode s).map urlencodeByte).flatten

/-- The name-value list of a `URLSearchParams` object. -/
abbrev URLSearchParams := List (JsString × JsString)

/-- The method `params.set(name, value)`: the first pair named `name` takes the
value and the other pairs of that name go; without one, the pair is appended. -/
def URLSearchParams.set (params : URLSearchParams) (name value : JsString) : URLSearchParams :=
  match params with
  | [] => [(name, value)]
  | (n, v) :: rest =>
    if n = name then (n, value) :: rest.filter (fun kv => kv.1 ≠ name)
    else (n, v) :: URLSearchParams.set rest name value

/-- The method `params.toString()`: the pairs as `name=value`, joined by `&`. -/
def URLSearchParams.toString : URLSearchParams → JsString
  | [] => []
  | [(n, v)] => urlencode n ++ js "=" ++ urlencode v
  | (n, v) :: rest => urlencode n ++ js "=" ++ urlencode v ++ js "&" ++ URLSearchParams.toString rest

/-- The names of the parameters in the query of a URL: the text after the first
`?`, cut at every `&`, each piece up to its first `=`. A URL without `?` has no
parameters. -/
def queryNames (url : JsString) : List JsString :=
  if 63 ∈ url then
    (split 38 ((url.dropWhile (fun c => c ≠ 63)).drop 1)).map (fun p => p.takeWhile (fun c => c ≠ 61))
  else []

/-- The escape `\uXXXX` with lower-case digits. -/
def unicodeEscape (c : Nat) : JsString :=
  [92, 117, hexDigitLower (c / 4096 % 16), hexDigitLower (c / 256 % 16),
    hexDigitLower (c / 16 % 16), hexDigitLower (c % 16)]

/-- How `QuoteJSONString` writes a code unit that is not a surrogate. -/
def quoteUnit (c : Nat) : JsString :=
  if c = 8 then js "\\b"
  else if c = 9 then js "\\t"
  else if c = 10 then js "\\n"
  else if c = 12 then js "\\f"
  else if c = 13 then js "\\r"
  else if c = 34 then js "\\\""
  else if c = 92 then js "\\\\"
  else if c < 32 then unicodeEscape c
  else [c]

/-- The characters `QuoteJSONString` writes between the quotes: a surrogate pair
is kept, a lone surrogate is escaped. -/
def quoteUnits : JsString → JsString
  | [] => []
  | [c] => if isHighSurrogate c || isLowSurrogate c then unicodeEscape c else quoteUnit c
  | c :: d :: rest =>
    if isHighSurrogate c && isLowSurrogate d then c :: d :: quoteUnits rest
    else if isHighSurrogate c || isLowSurrogate c then unicodeEscape c ++ quoteUnits (d :: rest)
    else quoteUnit c ++ quoteUnits (d :: rest)

/-- The abstract operation `QuoteJSONString` of ECMA-262. -/
def quoteJSONString (s : JsString) : JsString :=
  js "\"" ++ quoteUnits s ++ js "\""

/-- `JSON.stringify({ key: value })` for an object literal with one property
whose value is a string. -/
def JSONstringifyProperty (key value : JsString) : JsString :=
  js "\x7b" ++ quoteJSONString key ++ js ":" ++ quoteJSONString value ++ js "\x7d"

/-! ## api.js -/

namespace Api

/-- The constant `API_BASE`. -/
def API_BASE : JsString := js "/api"

/-- The function `getToken()` of api.js. -/
def getToken (ls : Storage) : Option JsString :=
  ls.getItem (js "access_token")

/-- Lines 8 to 11 of `request`: the header object handed to `fetch`. -/
def requestHeaders (ls : Storage) (options : RequestOptions) : Headers :=
  let headers := options.headers.getD []
  let headers :=
    if !truthy options.body then setProp (js "Content-Type") (js "application/json") headers
    else headers
  let token := getToken ls
  if truthy token then setProp (js "Authorization") (js "Bearer " ++ token.getD []) headers
  else headers

/-- The arguments of the call `fetch(API_BASE + path, { ...options, headers })`
that `request` makes. -/
def fetchCall (ls : Storage) (path : JsString) (options : RequestOptions) : JsString × FetchInit :=
  (API_BASE ++ path,
    { method := options.method, body := options.body, headers := requestHeaders ls options })

/-- Lines 14 to 25 of `request`: what the call settles to once `fetch` has
delivered the response `res`. -/
def handleResponse (res : Response) : Except JsError Json :=
  if !res.ok then
    match res.text with
    | .error e => .error e
    | .ok text =>
      let json := match JSONparse text with
        | .ok v => v
        | .error _ => Json.obj [(js "detail", .str text)]
      match getDetail json with
      | .error e => .error e
      | .ok detail =>
        .error (.error (orElse detail (.str res.statusText)) (some res.status) (some json))
  else if res.status = 204 then .ok .null
  else res.json

/-- The function `request(path, options)`, run against the stored items `ls`
and the network `fetch`. -/
def request (ls : Storage) (fetch : Fetch) (path : JsString) (options : RequestOptions := {}) :
    Except JsError Json :=
  match fetch (fetchCall ls path options).1 (fetchCall ls path options).2 with
  | .error e => .error e
  | .ok res => handleResponse res

/-- The path `getComplaints` requests. -/
def getComplaintsPath (department status : Option JsString) : JsString :=
  let params : URLSearchParams := []
  let params := if truthy department then params.set (js "department") (department.getD []) else params
  let params := if truthy status then params.set (js "status_filter") (status.getD []) else params
  let q := params.toString
  js "/complaints" ++ (if truthy (some q) then js "?" ++ q else [])

/-- The function `getComplaints({ department, status })`. -/
def getComplaints (ls : Storage) (fetch : Fetch) (department status : Option JsString) :
    Except JsError Json :=
  request ls fetch (getComplaintsPath department status)

/-- The function `getComplaint(id)`; `id` is the text the template literal
inserts for the argument. -/
def getComplaint (ls : Storage) (fetch : Fetch) (id : JsString) : Except JsError Json :=
  request ls fetch (js "/complaints/" ++ id)

/-- The function `markInProgress(id)`. -/
def markInProgress (ls : Storage) (fetch : Fetch) (id : JsString) : Except JsError Json :=
  request ls fetch (js "/admin/cm-admin/complaints/" ++ id ++ js "/in-progress")
    { method := some (js "PUT") }

/-- The `body` that `markSolved` computes from its second argument. -/
def markSolvedBody (admin_response : Option JsString) : Option JsString :=
  if truthy admin_response then
    some (JSONstringifyProperty (js "admin_response") (admin_response.getD []))
  else none

/-- The function `markSolved(id, admin_response)`. -/
def markSolved (ls : Storage) (fetch : Fetch) (id : JsString) (admin_response : Option JsString) :
    Except JsError Json :=
  request ls fetch (js "/admin/complaints/" ++ id ++ js "/solve")
    { method := some (js "PUT"), body := markSolvedBody admin_response }

/-- The function `addMessage(id, message)` for a string `message`. -/
def addMessage (ls : Storage) (fetch : Fetch) (id message : JsString) : Except JsError Json :=
  request ls fetch (js "/admin/cm-admin/complaints/" ++ id ++ js "/messages")
    { method := some (js "POST"), body := some (JSONstringifyProperty (js "message") message) }

/-- The path `getMessagesForComplaintAsCAdmin` requests. -/
def messagesPath (id : JsString) (sender_role : Option JsString) : JsString :=
  let params : URLSearchParams := []
  let params := if truthy sender_role then params.set (js "sender_role") (sender_role.getD []) else params
  let q := params.toString
  js "/admin/c-admin/complaints/" ++ id ++ js "/messages" ++ (if truthy (some q) then js "?" ++ q else [])

/-- The function `getMessagesForComplaintAsCAdmin(id, sender_role)`. -/
def getMessagesForComplaintAsCAdmin (ls : Storage) (fetch : Fetch) (id : JsString)
    (sender_role : Option JsString) : Except JsError Json :=
  request ls fetch (messagesPath id sender_role)

/-- The function `getProfile()` of api.js. -/
def getProfile (ls : Storage) (fetch : Fetch) : Except JsError Json :=
  request ls fetch (js "/auth/me")

end Api

/-- An invocation of one of the functions api.js exports, with its arguments. -/
inductive ApiCall where
  | getComplaints (department status : Option JsString)
  | getComplaint (id : JsString)
  | markInProgress (id : JsString)
  | markSolved (id : JsString) (admin_response : Option JsString)
  | addMessage (id message : JsString)
  | getMessagesForComplaintAsCAdmin (id : JsString) (sender_role : Option JsString)
  | getProfile

/-- Running an exported function. -/
def ApiCall.run (ls : Storage) (fetch : Fetch) : ApiCall → Except JsError Json
  | .getComplaints department status => Api.getComplaints ls fetch department status
  | .getComplaint id => Api.getComplaint ls fetch id
  | .markInProgress id => Api.markInProgress ls fetch id
  | .markSolved id admin_response => Api.markSolved ls fetch id admin_response
  | .addMessage id message => Api.addMessage ls fetch id message
  | .getMessagesForComplaintAsCAdmin id sender_role =>
    Api.getMessagesForComplaintAsCAdmin ls fetch id sender_role
  | .getProfile => Api.getProfile ls fetch

/-- The first argument the exported function passes to `request`. -/
def ApiCall.path : ApiCall → JsString
  | .getComplaints department status => Api.getComplaintsPath department status
  | .getComplaint id => js "/complaints/" ++ id
  | .markInProgress id => js "/admin/cm-admin/complaints/" ++ id ++ js "/in-progress"
  | .markSolved id _ => js "/admin/complaints/" ++ id ++ js "/solve"
  | .addMessage id _ => js "/admin/cm-admin/complaints/" ++ id ++ js "/messages"
  | .getMessagesForComplaintAsCAdmin id sender_role => Api.messagesPath id sender_role
  | .getProfile => js "/auth/me"

/-- The second argument the exported function passes to `request`. -/
def ApiCall.options : ApiCall → RequestOptions
  | .markInProgress _ => { method := some (js "PUT") }
  | .markSolved _ admin_response =>
    { method := some (js "PUT"), body := Api.markSolvedBody admin_response }
  | .addMessage _ message =>
    { method := some (js "POST"), body := some (JSONstringifyProperty (js "message") message) }
  | _ => {}

/-- The call of `fetch` that the exported function ends in. -/
def ApiCall.issued (ls : Storage) (c : ApiCall) : JsString × FetchInit :=
  Api.fetchCall ls c.path c.options

namespace Auth

/-- The call of `fetch` that `getProfile` of auth.js makes, if it makes one. -/
def getProfileCall (ls : Storage) : Option (JsString × FetchInit) :=
  let token := getToken ls
  if !truthy token then none
  else
    some (js "/api/auth/me",
      { method := none, body := none,
        headers := [(js "Authorization", js "Bearer " ++ token.getD [])] })

/-- The function `getProfile()` of auth.js. A rejected `fetch` and a response
that is not ok are caught and give `null`; the promise `res.json()` is returned
without `await`, so its rejection is not caught. -/
def getProfile (ls : Storage) (fetch : Fetch) : Except JsError Json :=
  match getProfileCall ls with
  | none => .ok .null
  | some (url, init) =>
    match fetch url init with
    | .error _ => .ok .null
    | .ok res => if !res.ok then .ok .null else res.json

end Auth

/-! ## The token store as a sequence of operations -/

/-- A call that changes the token store: `saveToken(token)` with a string, or
`removeToken()`. -/
inductive TokenOp where
  | saveToken (token : JsString)
  | removeToken

/-- The store after one call. -/
def TokenOp.apply (ls : Storage) : TokenOp → Storage
  | .saveToken token => Auth.saveToken ls token
  | .removeToken => Auth.removeToken ls

/-- The store after a sequence of calls, the first of the list first. -/
def TokenOp.run (ls : Storage) (ops : List TokenOp) : Storage :=
  ops.foldl TokenOp.apply ls

/-! ## The document: elements, listeners, timers -/

/-- The functions the page controllers register as event listeners and timer
callbacks. `clearPoll` is the `beforeunload` listener of complaint_details.js,
`() => { if (pollHandle) clearInterval(pollHandle); }`; the three click
listeners of `showAdminControls` carry the text of `complaint.id` they close
over. -/
inductive Handler where
  | loadComplaint
  | loadComplaints
  | clearPoll
  | inProgressClick (complaintId : JsString)
  | sendClick (complaintId : JsString)
  | solveClick (complaintId : JsString)

/-- The call to api.js a click listener of `showAdminControls` starts with, given
the text in its textarea; what the listener does afterwards reloads the view. -/
def Handler.firstCall (value : JsString) : Handler → Option ApiCall
  | .inProgressClick complaintId => some (.markInProgress complaintId)
  | .sendClick complaintId => some (.addMessage complaintId value)
  | .solveClick complaintId => some (.markSolved complaintId (some value))
  | _ => none

/-- An element of the document: tag name, `className`, the text set through
`textContent`, the attributes set through `setAttribute`, the listeners added,
and the child elements. -/
inductive Element where
  | mk (tag className textContent : JsString) (attributes : List (JsString × JsString))
      (listeners : List (JsString × Handler)) (children : List Element)

/-- The child elements. -/
def Element.children : Element → List Element
  | .mk _ _ _ _ _ children => children

/-- The listeners added to the element. -/
def Element.listeners : Element → List (JsString × Handler)
  | .mk _ _ _ _ listeners _ => listeners

/-- The text set through `textContent`. -/
def Element.textContent : Element → JsString
  | .mk _ _ textContent _ _ _ => textContent

/-- `document.createElement(tag)`. -/
def createElement (tag : JsString) : Element :=
  .mk tag [] [] [] [] []

/-- The assignment `node.className = v`. -/
def Element.setClassName (v : JsString) : Element → Element
  | .mk tag _ text attrs listeners children => .mk tag v text attrs listeners children

/-- The assignment `node.textContent = v`: the text replaces the children. -/
def Element.setTextContent (v : JsString) : Element → Element
  | .mk tag cls _ attrs listeners _ => .mk tag cls v attrs listeners []

/-- The call `node.setAttribute(k, v)`. -/
def Element.setAttribute (k v : JsString) : Element → Element
  | .mk tag cls text attrs listeners children =>
    .mk tag cls text (setProp k v attrs) listeners children

/-- The call `node.appendChild(c)`. -/
def Element.appendChild : Element → Element → Element
  | .mk tag cls text attrs listeners children, c =>
    .mk tag cls text attrs listeners (children ++ [c])

/-- The call `node.addEventListener(type, handler)`. -/
def Element.addEventListener (type : JsString) (handler : Handler) : Element → Element
  | .mk tag cls text attrs listeners children =>
    .mk tag cls text attrs (listeners ++ [(type, handler)]) children

/-- The assignment `node.innerHTML = ''`: text and children go. -/
def Element.clearInnerHTML : Element → Element
  | .mk tag cls _ attrs listeners _ => .mk tag cls [] attrs listeners []

/-- The helper `el(tag, attrs, children)` of home.js and complaint_details.js,
for attribute values that are strings. -/
def el (tag : JsString) (attrs : List (JsString × JsString) := [])
    (children : List Element := []) : Element :=
  let node := createElement tag
  let node := attrs.foldl (fun node kv =>
    if kv.1 = js "class" then node.setClassName kv.2
    else if kv.1 = js "text" then node.setTextContent kv.2
    else node.setAttribute kv.1 kv.2) node
  children.foldl (fun node c => node.appendChild c) node

mutual
/-- The handlers of the listeners on an element and on the elements below it. -/
def Element.handlers : Element → List Handler
  | .mk _ _ _ _ listeners children =>
    listeners.map (fun l => l.2) ++ Element.handlersOfList children
/-- The handlers of the listeners on the elements of a list and below them. -/
def Element.handlersOfList : List Element → List Handler
  | [] => []
  | c :: cs => c.handlers ++ Element.handlersOfList cs
end

/-- Reading `value[key]` for a key no prototype defines: a `TypeError` on
`null`, the own property of an object, `undefined` (`none`) otherwise. -/
def getProperty (value : Json) (key : JsString) : Except JsError (Option Json) :=
  match value with
  | .null => .error .typeError
  | .obj members => .ok (members.lookup key)
  | _ => .ok none

/-- The comparison `v === s` of a value that may be `undefined` with a string. -/
def strictEqualsString (v : Option Json) (s : JsString) : Bool :=
  match v with
  | some (.str t) => t == s
  | _ => false

/-- `String.prototype.slice(start, stop)` for indices that are not negative. -/
def slice (s : JsString) (start stop : Nat) : JsString :=
  (s.take stop).drop start

/-- An active interval: the handle `setInterval` returned, the callback, the
delay in milliseconds. -/
structure Timer where
  handle : Nat
  callback : Handler
  delay : Nat

/-- The part of a page the controllers' start-up code acts on: the ids of the
elements in the document, the active intervals, the last handle handed out
(handles are positive), the listeners added to `window` and to elements by id
(target, event type, handler), and the module variable `pollHandle` of
complaint_details.js (`none` while it is `undefined`). -/
structure Page where
  elementIds : List JsString
  timers : List Timer
  lastHandle : Nat
  listeners : List (JsString × JsString × Handler)
  pollHandle : Option Nat

/-- The call `setInterval(callback, delay)`: the new handle and the page. -/
def Page.setInterval (p : Page) (callback : Handler) (delay : Nat) : Nat × Page :=
  (p.lastHandle + 1,
    { p with timers := p.timers ++ [⟨p.lastHandle + 1, callback, delay⟩],
             lastHandle := p.lastHandle + 1 })

/-- The call `clearInterval(handle)`. -/
def Page.clearInterval (p : Page) (handle : Nat) : Page :=
  { p with timers := p.timers.filter (fun t => t.handle ≠ handle) }

/-- The call `target.addEventListener(type, handler)`. -/
def Page.addEventListener (p : Page) (target type : JsString) (handler : Handler) : Page :=
  { p with listeners := p.listeners ++ [(target, type, handler)] }

/-- What running a handler does to the intervals: `clearPoll` clears the
interval `pollHandle` names when it is set and not zero; the other handlers
fetch and render, they start and clear no interval. -/
def Handler.runOn (p : Page) : Handler → Page
  | .clearPoll =>
    match p.pollHandle with
    | some h => if h ≠ 0 then p.clearInterval h else p
    | none => p
  | _ => p

/-- Firing the event `type` at `target`: its listeners run in the order they
were added. -/
def Page.dispatch (p : Page) (target type : JsString) : Page :=
  (p.listeners.filter (fun l => l.1 = target ∧ l.2.1 = type)).foldl
    (fun q l => l.2.2.runOn q) p

/-! ## home.js -/

/-- A complaint as the list page reads it: the texts of `id`, `title`,
`description`, `department` and `String(status)`, the text
`new Date(created_at).toLocaleString()` gives, and `image_url` (`none` when it
is absent). -/
structure Complaint where
  id : JsString
  title : JsString
  description : JsString
  department : JsString
  status : JsString
  createdAt : JsString
  image_url : Option JsString

namespace Home

/-- The text of the snippet in `renderComplaintCard`:
`d.length > 150 ? d.slice(0, 147) + '...' : d`. -/
def snippetText (description : JsString) : JsString :=
  if description.length > 150 then slice description 0 147 ++ js "..." else description

/-- The function `renderComplaintCard(c)`. -/
def renderComplaintCard (c : Complaint) : Element :=
  let card := el (js "div") [(js "class", js "complaint-card")]
  let card :=
    if truthy c.image_url then
      let thumb := el (js "img")
        [(js "src", c.image_url.getD []), (js "class", js "complaint-thumb"), (js "alt", c.title)]
      card.appendChild thumb
    else card
  let body := el (js "div") [(js "class", js "complaint-body")]
  let body := body.appendChild (el (js "h3") [(js "text", c.title)])
  let meta := el (js "div") [(js "class", js "complaint-meta")]
  let meta := meta.appendChild
    (el (js "span") [(js "class", js "complaint-department"), (js "text", c.department)])
  let meta := meta.appendChild
    (el (js "span") [(js "class", js "complaint-status"), (js "text", c.status)])
  let meta := meta.appendChild
    (el (js "span") [(js "class", js "complaint-created"), (js "text", c.createdAt)])
  let body := body.appendChild meta
  let snippet := el (js "p")
    [(js "class", js "complaint-snippet"), (js "text", snippetText c.description)]
  let body := body.appendChild snippet
  let actions := el (js "div") [(js "class", js "complaint-actions")]
  let view := el (js "a")
    [(js "href", js "complaint_details.html?id=" ++ c.id), (js "class", js "btn btn-view"),
      (js "text", js "View")]
  let actions := actions.appendChild view
  let body := body.appendChild actions
  card.appendChild body

/-- The `DOMContentLoaded` listener of home.js: it adds `loadComplaints` as
`change` listener to the two filters (a `TypeError` when one is missing), awaits
`loadComplaints()`, and starts the 15000 ms interval, whose handle it drops. -/
def onDOMContentLoaded (p : Page) : Except JsError Page :=
  if js "filter-department" ∉ p.elementIds then .error .typeError
  else
    let p := p.addEventListener (js "filter-department") (js "change") .loadComplaints
    if js "filter-status" ∉ p.elementIds then .error .typeError
    else
      let p := p.addEventListener (js "filter-status") (js "change") .loadComplaints
      let p := Handler.loadComplaints.runOn p
      .ok (p.setInterval .loadComplaints 15000).2

end Home

/-! ## complaint_details.js -/

namespace Detail

/-- The function `showAdminControls(profile, complaint)`: `controls` is what
`document.getElementById('admin-controls')` gives (`none` is `null`),
`complaintId` the text of `complaint.id`; the result is the container after the
call. -/
def showAdminControls (controls : Option Element) (profile : Json) (complaintId : JsString) :
    Except JsError (Option Element) :=
  match controls with
  | none => .ok none
  | some controls => do
    let controls := controls.clearInnerHTML
    let role ← getProperty profile (js "role_name")
    let controls :=
      if strictEqualsString role (js "cm_admin") then
        let inProgressBtn := el (js "button") [(js "class", js "btn"), (js "text", js "Mark In Progress")]
        let inProgressBtn := inProgressBtn.addEventListener (js "click") (.inProgressClick complaintId)
        let controls := controls.appendChild inProgressBtn
        let msgBox := el (js "div") [(js "class", js "msg-box")]
        let input := el (js "textarea") [(js "placeholder", js "Add a message...")]
        let send := el (js "button") [(js "class", js "btn"), (js "text", js "Send")]
        let send := send.addEventListener (js "click") (.sendClick complaintId)
        let msgBox := msgBox.appendChild input
        let msgBox := msgBox.appendChild send
        controls.appendChild msgBox
      else controls
    let role ← getProperty profile (js "role_name")
    let controls :=
      if strictEqualsString role (js "c_admin") then
        let solveBtn := el (js "button") [(js "class", js "btn btn-solve"), (js "text", js "Mark Solved")]
        let respInput := el (js "textarea") [(js "placeholder", js "Optional resolution note")]
        let solveBtn := solveBtn.addEventListener (js "click") (.solveClick complaintId)
        let controls := controls.appendChild respInput
        controls.appendChild solveBtn
      else controls
    return some controls

/-- The `DOMContentLoaded` listener of complaint_details.js: it awaits
`loadComplaint()`, starts the 10000 ms interval, keeps its handle in
`pollHandle`, and adds the `beforeunload` listener that clears it. -/
def onDOMContentLoaded (p : Page) : Page :=
  let p := Handler.loadComplaint.runOn p
  let r := p.setInterval .loadComplaint 10000
  let p := { r.2 with pollHandle := some r.1 }
  p.addEventListener (js "window") (js "beforeunload") .clearPoll

end Detail

/-! ## The JSON parser: each step consumes input -/

/-- One step of the string parser. -/
theorem parseStringBody_cons (c : Nat) (rest : JsString) :
    parseStringBody (c :: rest) =
      if c = 34 then some ([], rest)
      else if c = 92 then
        match rest with
        | [] => none
        | e :: r =>
          if e = 117 then
            match r with
            | h1 :: h2 :: h3 :: h4 :: r2 =>
              match hexVal h1, hexVal h2, hexVal h3, hexVal h4, parseStringBody r2 with
              | some a, some b, some c, some d, some (s, out) =>
                some ((a * 4096 + b * 256 + c * 16 + d) :: s, out)
              | _, _, _, _, _ => none
            | _ => none
          else
            match simpleEscape e, parseStringBody r with
            | some u, some (s, out) => some (u :: s, out)
            | _, _ => none
      else if c < 32 then none
      else
        match parseStringBody rest with
        | some (s, out) => some (c :: s, out)
        | none => none := by
  rw [parseStringBody.eq_def]
  rfl

/-- Skipping whitespace never lengthens the input. -/
theorem skipWs_length_le (x : JsString) : (skipWs x).length ≤ x.length := by
  induction x with
  | nil => simp [skipWs]
  | cons c cs ih =>
    simp only [skipWs]
    split_ifs
    · simp only [List.length_cons]; omega
    · exact Nat.le_refl _

/-- What remains after skipping whitespace and one more code unit is shorter. -/
theorem skipWs_cons_length (x rest : JsString) (c : Nat) (h : skipWs x = c :: rest) :
    rest.length < x.length := by
  have := skipWs_length_le x
  rw [h] at this
  simp only [List.length_cons] at this
  omega

/-- The digits taken and the rest make up the input. -/
theorem takeDigits_length (x : JsString) :
    (takeDigits x).1.length + (takeDigits x).2.length = x.length := by
  induction x with
  | nil => simp [takeDigits]
  | cons c cs ih =>
    simp only [takeDigits]
    split_ifs
    · simp only [List.length_cons]; omega
    · simp

/-- The rest left by `takeDigits` is no longer than the input. -/
theorem takeDigits_eq_length (x ds out : JsString) (h : takeDigits x = (ds, out)) :
    ds.length + out.length = x.length := by
  have := takeDigits_length x
  rw [h] at this
  exact this

/-- A string literal consumes input. -/
theorem parseStringBody_length (n : Nat) :
    ∀ (x s out : JsString), x.length ≤ n → parseStringBody x = some (s, out) →
      out.length < x.length := by
  induction n with
  | zero =>
    intro x s out hx h
    have : x = [] := List.length_eq_zero.1 (Nat.le_zero.1 hx)
    subst this
    simp [parseStringBody] at h
  | succ n ih =>
    intro x s out hx h
    cases x with
    | nil => simp [parseStringBody] at h
    | cons c rest =>
      rw [parseStringBody_cons] at h
      simp only [List.length_cons] at hx ⊢
      split at h
      · simp only [Option.some.injEq, Prod.mk.injEq] at h
        rw [← h.2]; omega
      · split at h
        · split at h
          · simp at h
          · next e r =>
            simp only [List.length_cons] at hx ⊢
            split at h
            · split at h
              · next h1 h2 h3 h4 r2 =>
                simp only [List.length_cons] at hx ⊢
                split at h
                · next a b c d s2 out2 _ _ _ _ hp =>
                  have := ih r2 s2 out2 (by omega) hp
                  simp only [Option.some.injEq, Prod.mk.injEq] at h
                  rw [← h.2]; omega
                · simp at h
              · simp at h
            · split at h
              · next u s2 out2 _ hp =>
                have := ih r s2 out2 (by omega) hp
                simp only [Option.some.injEq, Prod.mk.injEq] at h
                rw [← h.2]; omega
              · simp at h
        · split at h
          · simp at h
          · split at h
            · next s2 out2 hp =>
              have := ih rest s2 out2 (by omega) hp
              simp only [Option.some.injEq, Prod.mk.injEq] at h
              rw [← h.2]; omega
            · simp at h

/-- A fraction part never lengthens the input. -/
theorem parseFraction_length (x : JsString) (fs : List Nat) (out : JsString)
    (h : parseFraction x = some (fs, out)) : out.length ≤ x.length := by
  unfold parseFraction at h
  split at h
  · next c rest =>
    split at h
    · split at h
      · simp at h
      · next ds o _ hd =>
        have := takeDigits_eq_length _ _ _ hd
        simp only [Option.some.injEq, Prod.mk.injEq] at h
        simp only [List.length_cons]
        rw [← h.2]; omega
    · simp only [Option.some.injEq, Prod.mk.injEq] at h
      rw [← h.2]
  · simp only [Option.some.injEq, Prod.mk.injEq] at h
    rw [← h.2]

/-- An exponent part never lengthens the input. -/
theorem parseExponent_length (x : JsString) (e : Int) (out : JsString)
    (h : parseExponent x = some (e, out)) : out.length ≤ x.length := by
  unfold parseExponent at h
  split at h
  · next c rest =>
    split at h
    · split at h
      · next s rest2 =>
        simp only [List.length_cons]
        split at h
        · split at h
          · simp at h
          · next ds o _ hd =>
            have := takeDigits_eq_length _ _ _ hd
            simp only [Option.some.injEq, Prod.mk.injEq] at h
            rw [← h.2]; omega
        · split at h
          · split at h
            · simp at h
            · next ds o _ hd =>
              have := takeDigits_eq_length _ _ _ hd
              simp only [Option.some.injEq, Prod.mk.injEq] at h
              rw [← h.2]; omega
          · split at h
            · simp at h
            · next ds o _ hd =>
              have := takeDigits_eq_length _ _ _ hd
              simp only [List.length_cons] at this
              simp only [Option.some.injEq, Prod.mk.injEq] at h
              rw [← h.2]; omega
      · simp at h
    · simp only [Option.some.injEq, Prod.mk.injEq] at h
      rw [← h.2]
  · simp only [Option.some.injEq, Prod.mk.injEq] at h
    rw [← h.2]

/-- An unsigned number literal consumes input. -/
theorem parseUnsigned_length (x : JsString) (v : Nat × Int) (out : JsString)
    (h : parseUnsigned x = some (v, out)) : out.length < x.length := by
  unfold parseUnsigned at h
  split at h
  · simp at h
  · next d ds afterInt hd =>
    have h1 := takeDigits_eq_length _ _ _ hd
    simp only [List.length_cons] at h1
    split at h
    · simp at h
    · split at h
      · simp at h
      · next fs afterFrac hf =>
        have h2 := parseFraction_length _ _ _ hf
        split at h
        · simp at h
        · next e o he =>
          have h3 := parseExponent_length _ _ _ he
          simp only [Option.some.injEq, Prod.mk.injEq] at h
          rw [← h.2]; omega

/-- A number literal consumes input. -/
theorem parseNumber_length (x : JsString) (v : Json) (out : JsString)
    (h : parseNumber x = some (v, out)) : out.length < x.length := by
  unfold parseNumber at h
  split at h
  · next c rest =>
    simp only [List.length_cons]
    split at h
    · split at h
      · next m e o hu =>
        have := parseUnsigned_length _ _ _ hu
        simp only [Option.some.injEq, Prod.mk.injEq] at h
        rw [← h.2]; omega
      · simp at h
    · split at h
      · next m e o hu =>
        have := parseUnsigned_length _ _ _ hu
        simp only [List.length_cons] at this
        simp only [Option.some.injEq, Prod.mk.injEq] at h
        rw [← h.2]; omega
      · simp at h
  · simp at h

/-- A keyword consumes input. -/
theorem expectWord_length (word x out : JsString) (c : Nat) (rest : JsString) (hx : x = c :: rest)
    (hw : 0 < word.length) (h : expectWord word x = some out) : out.length < x.length := by
  unfold expectWord at h
  split at h
  · simp only [Option.some.injEq] at h
    rw [← h, List.length_drop, hx]
    simp only [List.length_cons]
    omega
  · simp at h

/-- Every successful parse of a value, of array elements or of object members
consumes input. -/
theorem parse_length (fuel : Nat) :
    (∀ input v out, parseValue fuel input = some (v, out) → out.length < input.length) ∧
    (∀ input acc v out, parseElements fuel input acc = some (v, out) →
      out.length < input.length) ∧
    (∀ input acc v out, parseMembers fuel input acc = some (v, out) →
      out.length < input.length) := by
  induction fuel with
  | zero =>
    refine ⟨?_, ?_, ?_⟩
    · intro input v out h; simp [parseValue] at h
    · intro input acc v out h; simp [parseElements] at h
    · intro input acc v out h; simp [parseMembers] at h
  | succ n ih =>
    obtain ⟨ihV, ihE, ihM⟩ := ih
    refine ⟨?_, ?_, ?_⟩
    · intro input v out h
      rw [parseValue] at h
      split at h
      · simp at h
      · next c rest hs =>
        have hrest := skipWs_cons_length _ _ _ hs
        split at h
        · split at h
          · next d rest2 hs2 =>
            have hrest2 := skipWs_cons_length _ _ _ hs2
            split at h
            · simp only [Option.some.injEq, Prod.mk.injEq] at h
              rw [← h.2]; omega
            · have := ihM _ _ _ _ h
              simp only [List.length_cons] at this
              omega
          · simp at h
        · split at h
          · split at h
            · next d rest2 hs2 =>
              have hrest2 := skipWs_cons_length _ _ _ hs2
              split at h
              · simp only [Option.some.injEq, Prod.mk.injEq] at h
                rw [← h.2]; omega
              · have := ihE _ _ _ _ h
                simp only [List.length_cons] at this
                omega
            · simp at h
          · split at h
            · split at h
              · next s o hp =>
                have := parseStringBody_length _ _ _ _ (Nat.le_refl _) hp
                simp only [Option.some.injEq, Prod.mk.injEq] at h
                rw [← h.2]; omega
              · simp at h
            · split at h
              · simp only [Option.map_eq_some', Prod.mk.injEq] at h
                obtain ⟨o, ho, _, rfl⟩ := h
                have := expectWord_length _ _ _ c rest rfl (by decide) ho
                simp only [List.length_cons] at this
                omega
              · split at h
                · simp only [Option.map_eq_some', Prod.mk.injEq] at h
                  obtain ⟨o, ho, _, rfl⟩ := h
                  have := expectWord_length _ _ _ c rest rfl (by decide) ho
                  simp only [List.length_cons] at this
                  omega
                · split at h
                  · simp only [Option.map_eq_some', Prod.mk.injEq] at h
                    obtain ⟨o, ho, _, rfl⟩ := h
                    have := expectWord_length _ _ _ c rest rfl (by decide) ho
                    simp only [List.length_cons] at this
                    omega
                  · have := parseNumber_length _ _ _ h
                    simp only [List.length_cons] at this
                    omega
    · intro input acc v out h
      rw [parseElements] at h
      split at h
      · simp at h
      · next v1 out1 hv =>
        have h1 := ihV _ _ _ hv
        split at h
        · next c rest hs =>
          have h2 := skipWs_cons_length _ _ _ hs
          split at h
          · have := ihE _ _ _ _ h
            omega
          · split at h
            · simp only [Option.some.injEq, Prod.mk.injEq] at h
              rw [← h.2]; omega
            · simp at h
        · simp at h
    · intro input acc v out h
      rw [parseMembers] at h
      split at h
      · next q afterQuote hs =>
        have h1 := skipWs_cons_length _ _ _ hs
        split at h
        · split at h
          · simp at h
          · next key afterKey hk =>
            have h2 := parseStringBody_length _ _ _ _ (Nat.le_refl _) hk
            split at h
            · next colon afterColon hc =>
              have h3 := skipWs_cons_length _ _ _ hc
              split at h
              · split at h
                · simp at h
                · next v1 out1 hv =>
                  have h4 := ihV _ _ _ hv
                  split at h
                  · next c rest hs2 =>
                    have h5 := skipWs_cons_length _ _ _ hs2
                    split at h
                    · have := ihM _ _ _ _ h
                      omega
                    · split at h
                      · simp only [Option.some.injEq, Prod.mk.injEq] at h
                        rw [← h.2]; omega
                      · simp at h
                  · simp at h
              · simp at h
            · simp at h
        · simp at h
      · simp at h

/-! ## The JSON parser never runs short of nesting depth -/

/-- Once the bound on nested calls exceeds twice the length of the input, one
more allowed call changes nothing. -/
theorem parse_fuel_step (fuel : Nat) :
    (∀ input, 2 * input.length + 2 ≤ fuel →
      parseValue (fuel + 1) input = parseValue fuel input) ∧
    (∀ input acc, 2 * input.length + 3 ≤ fuel →
      parseElements (fuel + 1) input acc = parseElements fuel input acc) ∧
    (∀ input acc, 2 * input.length + 3 ≤ fuel →
      parseMembers (fuel + 1) input acc = parseMembers fuel input acc) := by
  induction fuel with
  | zero =>
    refine ⟨?_, ?_, ?_⟩
    · intro input h; omega
    · intro input acc h; omega
    · intro input acc h; omega
  | succ n ih =>
    obtain ⟨ihV, ihE, ihM⟩ := ih
    refine ⟨?_, ?_, ?_⟩
    · intro input hb
      conv_lhs => rw [parseValue]
      conv_rhs => rw [parseValue]
      cases hs : skipWs input with
      | nil => rfl
      | cons c rest =>
        have hrest := skipWs_cons_length _ _ _ hs
        simp only []
        by_cases h1 : c = 123
        · simp only [h1, if_true]
          cases hs2 : skipWs rest with
          | nil => rfl
          | cons d rest2 =>
            have hrest2 := skipWs_cons_length _ _ _ hs2
            simp only []
            by_cases h2 : d = 125
            · simp only [h2, if_true]
            · simp only [h2, if_false]
              exact ihM _ _ (by simp only [List.length_cons]; omega)
        · simp only [h1, if_false]
          by_cases h3 : c = 91
          · simp only [h3, if_true]
            cases hs2 : skipWs rest with
            | nil => rfl
            | cons d rest2 =>
              have hrest2 := skipWs_cons_length _ _ _ hs2
              simp only []
              by_cases h2 : d = 93
              · simp only [h2, if_true]
              · simp only [h2, if_false]
                exact ihE _ _ (by simp only [List.length_cons]; omega)
          · simp only [h3, if_false]
    · intro input acc hb
      conv_lhs => rw [parseElements]
      conv_rhs => rw [parseElements]
      rw [ihV input (by omega)]
      cases hv : parseValue n input with
      | none => rfl
      | some p =>
        obtain ⟨v, out⟩ := p
        have hout := (parse_length n).1 _ _ _ hv
        simp only []
        cases hs : skipWs out with
        | nil => rfl
        | cons c rest =>
          have hrest := skipWs_cons_length _ _ _ hs
          simp only []
          by_cases h1 : c = 44
          · simp only [h1, if_true]
            exact ihE _ _ (by omega)
          · simp only [h1, if_false]
    · intro input acc hb
      conv_lhs => rw [parseMembers]
      conv_rhs => rw [parseMembers]
      cases hs : skipWs input with
      | nil => rfl
      | cons q afterQuote =>
        have h1 := skipWs_cons_length _ _ _ hs
        simp only []
        by_cases hq : q = 34
        · simp only [hq, if_true]
          cases hk : parseStringBody afterQuote with
          | none => rfl
          | some p =>
            obtain ⟨key, afterKey⟩ := p
            have h2 := parseStringBody_length _ _ _ _ (Nat.le_refl _) hk
            simp only []
            cases hc : skipWs afterKey with
            | nil => rfl
            | cons colon afterColon =>
              have h3 := skipWs_cons_length _ _ _ hc
              simp only []
              by_cases hcolon : colon = 58
              · simp only [hcolon, if_true]
                rw [ihV afterColon (by omega)]
                cases hv : parseValue n afterColon with
                | none => rfl
                | some p =>
                  obtain ⟨v, out⟩ := p
                  have hout := (parse_length n).1 _ _ _ hv
                  simp only []
                  cases hs2 : skipWs out with
                  | nil => rfl
                  | cons c rest =>
                    have hrest := skipWs_cons_length _ _ _ hs2
                    simp only []
                    by_cases h5 : c = 44
                    · simp only [h5, if_true]
                      exact ihM _ _ (by omega)
                    · simp only [h5, if_false]
              · simp only [hcolon, if_false]
        · simp only [hq, if_false]

/-- Any bound on nested calls above twice the length of the text plus two gives
the same parse as that bound: `JSON.parse` as modelled never fails for want of
nesting depth. -/
theorem parseValue_fuel_enough (input : JsString) (extra : Nat) :
    parseValue (2 * input.length + 2 + extra) input = parseValue (2 * input.length + 2) input := by
  induction extra with
  | zero => rfl
  | succ k ih =>
    rw [← ih]
    exact (parse_fuel_step (2 * input.length + 2 + k)).1 input (by omega)

/-! ## `JSON.parse` undoes `JSON.stringify` on the bodies the client sends -/

/-- Reading back a lower-case hexadecimal digit. -/
theorem hexVal_hexDigitLower (n : Nat) (h : n < 16) : hexVal (hexDigitLower n) = some n := by
  interval_cases n <;> rfl

/-- The parser reads `\uXXXX` back as the code unit it was written from. -/
theorem parseStringBody_unicodeEscape (c : Nat) (h : c < 65536) (rest : JsString) :
    parseStringBody (unicodeEscape c ++ rest) = consUnit c (parseStringBody rest) := by
  have e : c / 4096 % 16 * 4096 + c / 256 % 16 * 256 + c / 16 % 16 * 16 + c % 16 = c := by omega
  simp only [unicodeEscape, List.cons_append, List.nil_append, parseStringBody_cons]
  simp only [show (92:Nat) ≠ 34 by decide, if_false, if_true]
  rw [hexVal_hexDigitLower _ (Nat.mod_lt _ (by decide)), hexVal_hexDigitLower _ (Nat.mod_lt _ (by decide)),
    hexVal_hexDigitLower _ (Nat.mod_lt _ (by decide)), hexVal_hexDigitLower _ (Nat.mod_lt _ (by decide))]
  rcases parseStringBody rest with _ | ⟨s, out⟩
  · simp [consUnit]
  · simp [consUnit, e]

/-- The parser reads the escaped form of a code unit back as the code unit. -/
theorem parseStringBody_quoteUnit (c : Nat) (rest : JsString) :
    parseStringBody (quoteUnit c ++ rest) = consUnit c (parseStringBody rest) := by
  unfold quoteUnit
  split_ifs with h1 h2 h3 h4 h5 h6 h7 h8
  · subst h1; rcases h : parseStringBody rest with _ | ⟨s, out⟩ <;>
      simp [js, utf16Units, parseStringBody_cons, simpleEscape, consUnit, h]
  · subst h2; rcases h : parseStringBody rest with _ | ⟨s, out⟩ <;>
      simp [js, utf16Units, parseStringBody_cons, simpleEscape, consUnit, h]
  · subst h3; rcases h : parseStringBody rest with _ | ⟨s, out⟩ <;>
      simp [js, utf16Units, parseStringBody_cons, simpleEscape, consUnit, h]
  · subst h4; rcases h : parseStringBody rest with _ | ⟨s, out⟩ <;>
      simp [js, utf16Units, parseStringBody_cons, simpleEscape, consUnit, h]
  · subst h5; rcases h : parseStringBody rest with _ | ⟨s, out⟩ <;>
      simp [js, utf16Units, parseStringBody_cons, simpleEscape, consUnit, h]
  · subst h6; rcases h : parseStringBody rest with _ | ⟨s, out⟩ <;>
      simp [js, utf16Units, parseStringBody_cons, simpleEscape, consUnit, h]
  · subst h7; rcases h : parseStringBody rest with _ | ⟨s, out⟩ <;>
      simp [js, utf16Units, parseStringBody_cons, simpleEscape, consUnit, h]
  · exact parseStringBody_unicodeEscape c (by omega) rest
  · have h9 : ¬ c < 32 := h8
    rcases h : parseStringBody rest with _ | ⟨s, out⟩ <;>
      simp [parseStringBody_cons, consUnit, h, h6, h7, h9]

/-- The parser keeps a code unit that needs no escape. -/
theorem parseStringBody_plain (c : Nat) (rest : JsString) (h : 93 ≤ c) :
    parseStringBody (c :: rest) = consUnit c (parseStringBody rest) := by
  have h1 : c ≠ 34 := by omega
  have h2 : c ≠ 92 := by omega
  have h3 : ¬ c < 32 := by omega
  rcases hr : parseStringBody rest with _ | ⟨s, out⟩ <;>
    simp [parseStringBody_cons, consUnit, hr, h1, h2, h3]

/-- The parser reads a quoted string back: after the opening quote, the text
`QuoteJSONString` wrote up to its closing quote gives the string itself. -/
theorem parseStringBody_quoteUnits (s rest : JsString) :
    parseStringBody (quoteUnits s ++ 34 :: rest) = some (s, rest) := by
  induction s using quoteUnits.induct with
  | case1 => simp [quoteUnits, parseStringBody_cons]
  | case2 c hc =>
    have hlt : c < 65536 := by
      simp only [isHighSurrogate, isLowSurrogate, Bool.or_eq_true, Bool.and_eq_true,
        decide_eq_true_eq] at hc
      omega
    simp only [quoteUnits, hc, if_true]
    rw [parseStringBody_unicodeEscape c hlt]
    simp [parseStringBody_cons, consUnit]
  | case3 c hc =>
    simp only [quoteUnits, hc]
    rw [if_neg (by simp), parseStringBody_quoteUnit]
    simp [parseStringBody_cons, consUnit]
  | case4 c d rest2 hcd ih =>
    simp only [isHighSurrogate, isLowSurrogate, Bool.and_eq_true, decide_eq_true_eq] at hcd
    have e : quoteUnits (c :: d :: rest2) = c :: d :: quoteUnits rest2 := by
      simp [quoteUnits, isHighSurrogate, isLowSurrogate, hcd]
    rw [e, List.cons_append, List.cons_append, parseStringBody_plain c _ (by omega),
      parseStringBody_plain d _ (by omega), ih]
    rfl
  | case5 c d rest2 hcd hc ih =>
    have hlt : c < 65536 := by
      simp only [isHighSurrogate, isLowSurrogate, Bool.or_eq_true, Bool.and_eq_true,
        decide_eq_true_eq] at hc
      omega
    have e : quoteUnits (c :: d :: rest2) = unicodeEscape c ++ quoteUnits (d :: rest2) := by
      simp only [quoteUnits, hcd, hc, if_true]
      simp
    rw [e, List.append_assoc, parseStringBody_unicodeEscape c hlt, ih]
    rfl
  | case6 c d rest2 hcd hc ih =>
    have e : quoteUnits (c :: d :: rest2) = quoteUnit c ++ quoteUnits (d :: rest2) := by
      simp only [quoteUnits, hcd, hc]
      simp
    rw [e, List.append_assoc, parseStringBody_quoteUnit, ih]
    rfl

/-- The text `JSON.stringify` writes for a one-property object, unit by unit. -/
theorem JSONstringifyProperty_eq (key value : JsString) :
    JSONstringifyProperty key value =
      123 :: 34 :: (quoteUnits key ++ 34 :: 58 :: 34 :: (quoteUnits value ++ 34 :: [125])) := by
  simp [JSONstringifyProperty, quoteJSONString, js, utf16Units]

/-- Parsing the serialized one-property object gives the object back, once the
parser may nest three calls. -/
theorem parseValue_stringifyProperty (fuel : Nat) (key value : JsString) :
    parseValue (fuel + 3) (JSONstringifyProperty key value)
      = some (.obj [(key, .str value)], []) := by
  have w34 : ∀ x : JsString, skipWs (34 :: x) = 34 :: x := fun _ => rfl
  have w58 : ∀ x : JsString, skipWs (58 :: x) = 58 :: x := fun _ => rfl
  have w123 : ∀ x : JsString, skipWs (123 :: x) = 123 :: x := fun _ => rfl
  have w125 : ∀ x : JsString, skipWs (125 :: x) = 125 :: x := fun _ => rfl
  rw [JSONstringifyProperty_eq, parseValue.eq_def]
  simp only [w123, w34]
  simp
  rw [parseMembers.eq_def]
  simp only [w34]
  simp [parseStringBody_quoteUnits, w58]
  rw [parseValue.eq_def]
  simp only [w34]
  simp [parseStringBody_quoteUnits, w125, setProp]

/-- `JSON.parse` undoes `JSON.stringify` on a one-property object with a string
value. -/
theorem JSONparse_stringifyProperty (key value : JsString) :
    JSONparse (JSONstringifyProperty key value) = .ok (.obj [(key, .str value)]) := by
  unfold JSONparse
  have hlen : 1 ≤ (JSONstringifyProperty key value).length := by
    rw [JSONstringifyProperty_eq]
    simp
  obtain ⟨f, hf⟩ : ∃ f, 2 * (JSONstringifyProperty key value).length + 2 = f + 3 :=
    ⟨2 * (JSONstringifyProperty key value).length - 1, by omega⟩
  rw [hf, parseValue_stringifyProperty]
  rfl

/-- A serialized object literal is a non-empty string. -/
theorem JSONstringifyProperty_truthy (key value : JsString) :
    truthy (some (JSONstringifyProperty key value)) = true := rfl

/-- A serialized object literal is not the empty string. -/
theorem JSONstringifyProperty_ne_nil (key value : JsString) :
    JSONstringifyProperty key value ≠ [] := by
  intro h
  have ht := JSONstringifyProperty_truthy key value
  rw [h] at ht
  exact absurd ht (by decide)

/-! ## The JWT decoder: segments -/

/-- `split` yields one segment more than there are separators. -/
theorem split_length (sep : Nat) (s : JsString) :
    (split sep s).length = s.count sep + 1 := by
  induction s with
  | nil => rfl
  | cons c cs ih =>
    by_cases h : c = sep
    · subst h
      simp [split, ih]
    · have hne : (c == sep) = false := by simpa using h
      cases hs : split sep cs with
      | nil => simp [hs] at ih
      | cons p ps =>
        rw [hs] at ih
        simp only [split, if_neg h, hs, List.length_cons, List.count_cons, hne] at ih ⊢
        simpa using ih

/-- Segments that hold no separator are what `split` gives back. -/
theorem split_append_sep (sep : Nat) (a rest : JsString) (ha : sep ∉ a) :
    split sep (a ++ sep :: rest) = a :: split sep rest := by
  induction a with
  | nil => simp [split]
  | cons c cs ih =>
    have hc : c ≠ sep := fun h => ha (by simp [h])
    have hcs : sep ∉ cs := fun h => ha (by simp [h])
    simp [split, hc, ih hcs]

/-- A string without the separator is a single segment. -/
theorem split_no_sep (sep : Nat) (a : JsString) (ha : sep ∉ a) : split sep a = [a] := by
  induction a with
  | nil => rfl
  | cons c cs ih =>
    have hc : c ≠ sep := fun h => ha (by simp [h])
    have hcs : sep ∉ cs := fun h => ha (by simp [h])
    simp [split, hc, ih hcs]

/-- Three dot-free segments joined by dots are split back into themselves. -/
theorem split_three (h p s : JsString) (hh : 46 ∉ h) (hp : 46 ∉ p) (hs : 46 ∉ s) :
    split 46 (h ++ 46 :: (p ++ 46 :: s)) = [h, p, s] := by
  rw [split_append_sep 46 h _ hh, split_append_sep 46 p _ hp, split_no_sep 46 s hs]

/-- C1: `parseJwt` returns `null` for the token `null` and for every token string
whose number of dots is not two, that is, which does not have exactly three
dot-separated segments (the empty string, no dot, one dot, three or more dots). -/
theorem parseJwt_null_unless_three_segments (token : Option JsString)
    (h : ∀ t, token = some t → t.count 46 ≠ 2) :
    Auth.parseJwt token = .ok .null := by
  cases token with
  | none => rfl
  | some t =>
    cases t with
    | nil => rfl
    | cons c cs =>
      have hlen : (split 46 (c :: cs)).length ≠ 3 := by
        rw [split_length]
        have := h (c :: cs) rfl
        omega
      simp [Auth.parseJwt, truthy, tryCatch, hlen]

/-- C1 at the tokens `"abc"`, `""`, `"a.b"`, `"a.b.c.d"` and `null`. -/
theorem parseJwt_null_unless_three_segments_witness :
    Auth.parseJwt (some (js "abc")) = .ok .null ∧
    Auth.parseJwt (some (js "")) = .ok .null ∧
    Auth.parseJwt (some (js "a.b")) = .ok .null ∧
    Auth.parseJwt (some (js "a.b.c.d")) = .ok .null ∧
    Auth.parseJwt none = .ok .null :=
  ⟨parseJwt_null_unless_three_segments _ (by intro t ht; cases ht; decide),
   parseJwt_null_unless_three_segments _ (by intro t ht; cases ht; decide),
   parseJwt_null_unless_three_segments _ (by intro t ht; cases ht; decide),
   parseJwt_null_unless_three_segments _ (by intro t ht; cases ht; decide),
   parseJwt_null_unless_three_segments none (by intro t ht; cases ht)⟩

/-- A `try` block whose handler returns `null` never throws. -/
theorem tryCatch_null_ok (body : Except JsError Json) :
    ∃ v, tryCatch body (fun _ => .ok .null) = .ok v := by
  cases body with
  | ok v => exact ⟨v, rfl⟩
  | error e => exact ⟨.null, rfl⟩

/-- C3: `parseJwt` never throws: on every token (a string or `null`) it returns a
value. When the token has three segments and `atob` rejects the padded middle
segment, or `atob` accepts it and `JSON.parse` rejects the decoded text, the
value returned is `null`. -/
theorem parseJwt_total (token : Option JsString) :
    (∃ v, Auth.parseJwt token = .ok v) ∧
    ∀ t p, token = some t → (split 46 t).length = 3 → (split 46 t).getD 1 [] = p →
      (∀ e, atob (Auth.padded p) = .error e → Auth.parseJwt token = .ok .null) ∧
      (∀ j e, atob (Auth.padded p) = .ok j → JSONparse j = .error e →
        Auth.parseJwt token = .ok .null) := by
  constructor
  · unfold Auth.parseJwt
    by_cases ht : truthy token = true
    · simpa [ht] using tryCatch_null_ok _
    · exact ⟨.null, by simp [ht]⟩
  · intro t p htok hlen hp
    subst htok
    cases t with
    | nil => simp [split] at hlen
    | cons c cs =>
      constructor
      · intro e he
        simp only [Auth.parseJwt, truthy, tryCatch, hlen, hp, he, Bool.not_true,
          Bool.false_eq_true, if_false, Option.getD_some, ne_eq, not_true_eq_false]
      · intro j e hj he
        simp only [Auth.parseJwt, truthy, tryCatch, hlen, hp, hj, he, Bool.not_true,
          Bool.false_eq_true, if_false, Option.getD_some, ne_eq, not_true_eq_false]

/-- C3 at `"a.!!!.c"` (the middle segment is not base64) and at `"a.YWJj.c"`
(the middle segment decodes to `abc`, which is not JSON). -/
theorem parseJwt_total_witness :
    Auth.parseJwt (some (js "a.!!!.c")) = .ok .null ∧
    Auth.parseJwt (some (js "a.YWJj.c")) = .ok .null :=
  ⟨((parseJwt_total (some (js "a.!!!.c"))).2 _ (js "!!!") rfl rfl rfl).1
      .invalidCharacterError rfl,
   ((parseJwt_total (some (js "a.YWJj.c"))).2 _ (js "YWJj") rfl rfl rfl).2
      (js "abc") .syntaxError rfl rfl⟩

/-! ## The JWT decoder: base64url payloads -/

/-- What `parseJwt` turns a URL-safe character into. -/
theorem replace_base64urlChar (i : Nat) :
    (fun c => if c = 95 then 47 else c) ((fun c => if c = 45 then 43 else c) (base64urlChar i))
      = base64Char i := by
  simp only [base64urlChar, base64Char]
  split_ifs <;> omega

/-- The standard alphabet is read back by `base64Index`. -/
theorem base64Index_base64Char (i : Nat) (h : i < 64) : base64Index (base64Char i) = some i := by
  interval_cases i <;> rfl

/-- No alphabet character is whitespace. -/
theorem base64Char_not_whitespace (i : Nat) : isAsciiWhitespace (base64Char i) = false := by
  simp only [base64Char, isAsciiWhitespace]
  split_ifs <;> simp <;> omega

/-- No alphabet character is `=`. -/
theorem base64Char_ne_pad (i : Nat) : base64Char i ≠ 61 := by
  simp only [base64Char]
  split_ifs <;> omega

/-- No URL-safe character is `=` or `.`. -/
theorem base64urlChar_ne (i : Nat) : base64urlChar i ≠ 61 ∧ base64urlChar i ≠ 46 := by
  simp only [base64urlChar]
  split_ifs <;> omega

/-- The base64url text is the characters of the 6-bit groups followed by the
padding. -/
theorem base64url_eq (bytes : List Nat) :
    base64url bytes = (sextetsOf bytes).map base64urlChar ++ List.replicate (padCount bytes) 61 := by
  induction bytes using base64url.induct with
  | case1 a b c rest ih =>
    have hp : padCount (a :: b :: c :: rest) = padCount rest := by
      simp only [padCount, List.length_cons]; omega
    simp only [base64url, sextetsOf, List.map_cons, List.cons_append, hp, ih]
  | case2 a b => rfl
  | case3 a => rfl
  | case4 => rfl

/-- How many 6-bit groups a byte sequence gives. -/
theorem sextetsOf_length (bytes : List Nat) :
    (sextetsOf bytes).length =
      4 * (bytes.length / 3) + (if bytes.length % 3 = 0 then 0 else bytes.length % 3 + 1) := by
  induction bytes using sextetsOf.induct with
  | case1 a b c rest ih =>
    simp only [sextetsOf, List.length_cons, ih]
    split_ifs <;> omega
  | case2 a b => simp [sextetsOf]
  | case3 a => simp [sextetsOf]
  | case4 => rfl

/-- The 6-bit groups of bytes are below 64. -/
theorem sextetsOf_lt (bytes : List Nat) (hb : ∀ b ∈ bytes, b < 256) :
    ∀ x ∈ sextetsOf bytes, x < 64 := by
  induction bytes using sextetsOf.induct with
  | case1 a b c rest ih =>
    have ha := hb a (by simp)
    have hb2 := hb b (by simp)
    have hc := hb c (by simp)
    have hrest : ∀ x ∈ rest, x < 256 := fun x hx => hb x (by simp [hx])
    intro x hx
    simp only [sextetsOf, List.mem_cons] at hx
    rcases hx with rfl | rfl | rfl | rfl | hx
    · omega
    · omega
    · omega
    · omega
    · exact ih hrest x hx
  | case2 a b =>
    have ha := hb a (by simp)
    have hb2 := hb b (by simp)
    intro x hx
    simp only [sextetsOf, List.mem_cons, List.not_mem_nil, or_false] at hx
    rcases hx with rfl | rfl | rfl <;> omega
  | case3 a =>
    have ha := hb a (by simp)
    intro x hx
    simp only [sextetsOf, List.mem_cons, List.not_mem_nil, or_false] at hx
    rcases hx with rfl | rfl <;> omega
  | case4 => intro x hx; simp [sextetsOf] at hx

/-- Decoding the 6-bit groups of a byte sequence gives the bytes back. -/
theorem decodeSextets_sextetsOf (bytes : List Nat) (hb : ∀ b ∈ bytes, b < 256) :
    decodeSextets (sextetsOf bytes) = bytes := by
  induction bytes using sextetsOf.induct with
  | case1 a b c rest ih =>
    have ha := hb a (by simp)
    have hb2 := hb b (by simp)
    have hc := hb c (by simp)
    have hrest : ∀ x ∈ rest, x < 256 := fun x hx => hb x (by simp [hx])
    simp only [sextetsOf, decodeSextets, ih hrest]
    congr 1
    · omega
    · congr 1
      · omega
      · congr 1
        omega
  | case2 a b =>
    have ha := hb a (by simp)
    have hb2 := hb b (by simp)
    simp only [sextetsOf, decodeSextets]
    congr 1
    · omega
    · congr 1
      omega
  | case3 a =>
    have ha := hb a (by simp)
    simp only [sextetsOf, decodeSextets]
    congr 1
    omega
  | case4 => rfl

/-- The alphabet characters of 6-bit groups are read back as the groups. -/
theorem sextets_map_base64Char (sx : List Nat) (h : ∀ x ∈ sx, x < 64) :
    sextets (sx.map base64Char) = some sx := by
  induction sx with
  | nil => rfl
  | cons x xs ih =>
    have hx := h x (by simp)
    have hxs : ∀ y ∈ xs, y < 64 := fun y hy => h y (by simp [hy])
    simp only [List.map_cons, sextets, base64Index_base64Char x hx, ih hxs]

/-- Removing the padding of a padded base64 text leaves the alphabet part. -/
theorem stripPadding_padded (sx : List Nat) (pc : Nat) (hpc : pc ≤ 2)
    (hlen : (sx.length + pc) % 4 = 0) (hne : 0 < pc → sx ≠ []) :
    stripPadding (sx.map base64Char ++ List.replicate pc 61) = sx.map base64Char := by
  have hmem : ∀ a, a ∈ (sx.map base64Char).reverse → a ≠ 61 := by
    intro a ha
    simp only [List.mem_reverse, List.mem_map] at ha
    obtain ⟨i, _, rfl⟩ := ha
    exact base64Char_ne_pad i
  have hl : (sx.map base64Char ++ List.replicate pc 61).length % 4 = 0 := by
    simpa using hlen
  unfold stripPadding
  rw [if_pos hl, List.reverse_append, List.reverse_replicate]
  rcases pc with _ | _ | _ | pc
  · simp only [List.replicate, List.nil_append, List.append_nil]
    rcases hr : (sx.map base64Char).reverse with _ | ⟨a, _ | ⟨b, r⟩⟩
    · rfl
    · have := hmem a (by simp [hr])
      simp [this]
    · have := hmem a (by simp [hr])
      simp [this]
  · have hsx : sx.map base64Char ≠ [] := by simpa using hne (by omega)
    rcases hr : (sx.map base64Char).reverse with _ | ⟨b, r⟩
    · simp at hr; exact absurd hr (by simpa using hne (by omega))
    · have hb := hmem b (by simp [hr])
      have e : (b :: r).reverse = sx.map base64Char := by
        rw [← hr, List.reverse_reverse]
      simp [List.replicate, hb, e]
  · have e : ((sx.map base64Char).reverse).reverse = sx.map base64Char := List.reverse_reverse _
    simp [List.replicate]
  · omega

/-- The decoder `atob` on the padded standard-alphabet text of 6-bit groups. -/
theorem atob_padded (sx : List Nat) (pc : Nat) (hpc : pc ≤ 2)
    (hlen : (sx.length + pc) % 4 = 0) (hne : 0 < pc → sx ≠ [])
    (hmod : sx.length % 4 ≠ 1) (hsx : ∀ x ∈ sx, x < 64) :
    atob (sx.map base64Char ++ List.replicate pc 61) = .ok (decodeSextets sx) := by
  have hfilter : (sx.map base64Char ++ List.replicate pc 61).filter (fun c => !isAsciiWhitespace c)
      = sx.map base64Char ++ List.replicate pc 61 := by
    rw [List.filter_eq_self]
    intro a ha
    rcases List.mem_append.1 ha with h | h
    · obtain ⟨i, _, rfl⟩ := List.mem_map.1 h
      simp [base64Char_not_whitespace]
    · have := List.eq_of_mem_replicate h
      subst this
      rfl
  unfold atob
  simp only [hfilter, stripPadding_padded sx pc hpc hlen hne, List.length_map,
    sextets_map_base64Char sx hsx, if_neg hmod]

/-- The arithmetic of base64 lengths: the padding is at most two characters, it
fills the text up to a multiple of four, and it is what `parseJwt` adds to the
unpadded text. -/
theorem sextetsOf_padCount (bytes : List Nat) :
    padCount bytes ≤ 2 ∧
    ((sextetsOf bytes).length + padCount bytes) % 4 = 0 ∧
    (sextetsOf bytes).length % 4 ≠ 1 ∧
    (4 - (sextetsOf bytes).length % 4) % 4 = padCount bytes ∧
    (0 < padCount bytes → sextetsOf bytes ≠ []) := by
  have hl := sextetsOf_length bytes
  have hnil : sextetsOf bytes = [] → (sextetsOf bytes).length = 0 := fun h => by rw [h]; rfl
  have key : padCount bytes ≤ 2 ∧
      ((sextetsOf bytes).length + padCount bytes) % 4 = 0 ∧
      (sextetsOf bytes).length % 4 ≠ 1 ∧
      (4 - (sextetsOf bytes).length % 4) % 4 = padCount bytes ∧
      (0 < padCount bytes → (sextetsOf bytes).length ≠ 0) := by
    unfold padCount
    generalize (sextetsOf bytes).length = L at hl
    generalize bytes.length = n at hl
    rcases (by omega : n % 3 = 0 ∨ n % 3 = 1 ∨ n % 3 = 2) with h | h | h
    · simp only [h, if_true] at hl ⊢
      omega
    · simp only [h] at hl ⊢
      simp only [show ¬ (1 = 0) by decide, if_false] at hl
      omega
    · simp only [h] at hl ⊢
      simp only [show ¬ (2 = 0) by decide, if_false] at hl
      omega
  exact ⟨key.1, key.2.1, key.2.2.1, key.2.2.2.1, fun hp h => key.2.2.2.2 hp (hnil h)⟩

/-- Repeating a one-unit string. -/
theorem strRepeat_singleton (c n : Nat) : strRepeat [c] n = List.replicate n c := by
  induction n with
  | zero => rfl
  | succ k ih => simp [strRepeat, ih, List.replicate_succ]

/-- The text `parseJwt` hands to `atob` for a padded base64url segment. -/
theorem padded_base64url (bytes : List Nat) :
    Auth.padded (base64url bytes)
      = (sextetsOf bytes).map base64Char ++ List.replicate (padCount bytes) 61 := by
  obtain ⟨_, h2, _, _, _⟩ := sextetsOf_padCount bytes
  have hrep : replaceAll 95 47 (replaceAll 45 43 (base64url bytes))
      = (sextetsOf bytes).map base64Char ++ List.replicate (padCount bytes) 61 := by
    simp only [replaceAll, base64url_eq, List.map_append, List.map_map, List.map_replicate]
    congr 1
    apply List.map_congr_left
    intro i _
    exact replace_base64urlChar i
  have hlen : (replaceAll 95 47 (replaceAll 45 43 (base64url bytes))).length % 4 = 0 := by
    rw [hrep]; simpa using h2
  simp only [Auth.padded, hlen]
  rw [hrep]
  simp [strRepeat]

/-- The text `parseJwt` hands to `atob` for an unpadded base64url segment: the
padding is put back. -/
theorem padded_base64urlUnpadded (bytes : List Nat) :
    Auth.padded (base64urlUnpadded bytes)
      = (sextetsOf bytes).map base64Char ++ List.replicate (padCount bytes) 61 := by
  obtain ⟨_, _, _, h4, _⟩ := sextetsOf_padCount bytes
  have hun : base64urlUnpadded bytes = (sextetsOf bytes).map base64urlChar := by
    simp only [base64urlUnpadded, base64url_eq, List.filter_append]
    have h1 : ((sextetsOf bytes).map base64urlChar).filter (fun c => decide (c ≠ 61))
        = (sextetsOf bytes).map base64urlChar := by
      rw [List.filter_eq_self]
      intro a ha
      obtain ⟨i, _, rfl⟩ := List.mem_map.1 ha
      simpa using (base64urlChar_ne i).1
    have h2 : (List.replicate (padCount bytes) 61).filter (fun c => decide (c ≠ 61)) = [] := by
      rw [List.filter_eq_nil_iff]
      intro a ha
      have := List.eq_of_mem_replicate ha
      simp [this]
    rw [h1, h2, List.append_nil]
  have hrep : replaceAll 95 47 (replaceAll 45 43 (base64urlUnpadded bytes))
      = (sextetsOf bytes).map base64Char := by
    simp only [replaceAll, hun, List.map_map]
    apply List.map_congr_left
    intro i _
    exact replace_base64urlChar i
  have hjs : js "=" = [61] := rfl
  simp only [Auth.padded]
  rw [hrep, List.length_map, h4, hjs, strRepeat_singleton]

/-- The dot-separated token built from a header, a payload and a signature
without dots decodes its payload: `parseJwt` gives what `JSON.parse` makes of
the `atob` of the padded payload, and `null` when either fails. -/
theorem parseJwt_three_segments (h p s : JsString) (hh : 46 ∉ h) (hp : 46 ∉ p) (hs : 46 ∉ s) :
    Auth.parseJwt (some (h ++ 46 :: (p ++ 46 :: s))) =
      tryCatch
        (match atob (Auth.padded p) with
          | .error e => .error e
          | .ok json => JSONparse json)
        (fun _ => .ok .null) := by
  have htruthy : truthy (some (h ++ 46 :: (p ++ 46 :: s))) = true := by
    cases h <;> rfl
  simp only [Auth.parseJwt, htruthy, Bool.not_true, Bool.false_eq_true, if_false,
    Option.getD_some, split_three h p s hh hp hs, List.length_cons, List.length_nil]
  rfl

/-- The padded base64url text of a byte sequence holds no dot. -/
theorem base64url_no_dot (bytes : List Nat) : 46 ∉ base64url bytes := by
  rw [base64url_eq]
  intro h
  rcases List.mem_append.1 h with h | h
  · obtain ⟨i, _, hi⟩ := List.mem_map.1 h
    exact (base64urlChar_ne i).2 hi
  · exact absurd (List.eq_of_mem_replicate h) (by decide)

/-- The unpadded base64url text of a byte sequence holds no dot. -/
theorem base64urlUnpadded_no_dot (bytes : List Nat) : 46 ∉ base64urlUnpadded bytes :=
  fun h => base64url_no_dot bytes (List.mem_of_mem_filter h)

/-- The decoder undoes the encoder: for a middle segment that is the base64url
text of a byte sequence, with its padding or without, `atob` receives a text it
decodes to the string whose code units are those bytes. -/
theorem atob_padded_base64url (bytes : List Nat) (hb : ∀ b ∈ bytes, b < 256) :
    atob (Auth.padded (base64url bytes)) = .ok bytes ∧
    atob (Auth.padded (base64urlUnpadded bytes)) = .ok bytes := by
  obtain ⟨h1, h2, h3, _, h5⟩ := sextetsOf_padCount bytes
  have key := atob_padded (sextetsOf bytes) (padCount bytes) h1 h2 h5 h3 (sextetsOf_lt bytes hb)
  rw [decodeSextets_sextetsOf bytes hb] at key
  exact ⟨by rw [padded_base64url, key], by rw [padded_base64urlUnpadded, key]⟩

/-- A text of ASCII characters is its own UTF-8 encoding. -/
theorem utf8Encode_ascii (t : JsString) (ht : ∀ c ∈ t, c < 128) : utf8Encode t = t := by
  have hs : ∀ c, c < 128 → isHighSurrogate c = false ∧ isLowSurrogate c = false := by
    intro c hc
    simp only [isHighSurrogate, isLowSurrogate, Bool.and_eq_false_iff, decide_eq_false_iff_not]
    omega
  have hsv : scalarValues t = t := by
    induction t using scalarValues.induct with
    | case1 => rfl
    | case2 c hc =>
      have := hs c (ht c (by simp))
      simp [this] at hc
    | case3 c hc => simp [scalarValues, hc]
    | case4 c d rest hcd ih =>
      have := hs c (ht c (by simp))
      simp [this] at hcd
    | case5 c d rest hcd hc ih =>
      have := hs c (ht c (by simp))
      simp [this] at hc
    | case6 c d rest hcd hc ih =>
      have hrest : ∀ x ∈ d :: rest, x < 128 := fun x hx => ht x (List.mem_cons_of_mem c hx)
      simp only [scalarValues, hcd, hc, ih hrest]
      simp
  unfold utf8Encode
  rw [hsv]
  induction t with
  | nil => rfl
  | cons c cs ih =>
    have hc := ht c (by simp)
    have hcs : ∀ x ∈ cs, x < 128 := fun x hx => ht x (List.mem_cons_of_mem c hx)
    have hsv2 : scalarValues cs = cs := by
      cases cs with
      | nil => rfl
      | cons d ds =>
        have h1 := hs c hc
        simp only [scalarValues, h1.1, h1.2] at hsv
        simpa using hsv
    simp [utf8Bytes, hc, ih hcs hsv2]

/-- Round trip of the JWT decoder on tokens whose payload is base64url of raw
bytes: `parseJwt` applies `JSON.parse` to the string whose code units are the
bytes, and returns `null` when that fails. -/
theorem parseJwt_base64url (bytes : List Nat) (hb : ∀ b ∈ bytes, b < 256) (h s : JsString)
    (hh : 46 ∉ h) (hs : 46 ∉ s) :
    Auth.parseJwt (some (h ++ js "." ++ base64url bytes ++ js "." ++ s))
      = tryCatch (JSONparse bytes) (fun _ => .ok .null) ∧
    Auth.parseJwt (some (h ++ js "." ++ base64urlUnpadded bytes ++ js "." ++ s))
      = tryCatch (JSONparse bytes) (fun _ => .ok .null) := by
  have hjs : js "." = [46] := rfl
  have e : ∀ p : JsString, h ++ js "." ++ p ++ js "." ++ s = h ++ 46 :: (p ++ 46 :: s) := by
    intro p; simp [hjs]
  obtain ⟨h1, h2⟩ := atob_padded_base64url bytes hb
  constructor
  · rw [e, parseJwt_three_segments h _ s hh (base64url_no_dot bytes) hs, h1]
  · rw [e, parseJwt_three_segments h _ s hh (base64urlUnpadded_no_dot bytes) hs, h2]

/-- Round trip of the JWT decoder on ASCII payloads: when the JSON text `t` of
the object `o` holds only ASCII characters, `parseJwt` returns `o` for the token
whose middle segment is the base64url of `t`, padded or not, between a header
and a signature without dots. -/
theorem parseJwt_roundtrip_ascii (t : JsString) (o : Json) (h s : JsString)
    (ht : ∀ c ∈ t, c < 128) (ho : JSONparse t = .ok o) (hh : 46 ∉ h) (hs : 46 ∉ s) :
    Auth.parseJwt (some (h ++ js "." ++ base64url (utf8Encode t) ++ js "." ++ s)) = .ok o ∧
    Auth.parseJwt (some (h ++ js "." ++ base64urlUnpadded (utf8Encode t) ++ js "." ++ s))
      = .ok o := by
  have hb : ∀ b ∈ t, b < 256 := fun b hb => Nat.lt_trans (ht b hb) (by decide)
  rw [utf8Encode_ascii t ht]
  obtain ⟨h1, h2⟩ := parseJwt_base64url t hb h s hh hs
  rw [h1, h2, ho]
  exact ⟨rfl, rfl⟩

/-- The round trip at the token `a.eyJyb2xlIjoiY19hZG1pbiJ9.c`, whose payload is
the text of `{role: "c_admin"}`. -/
theorem parseJwt_roundtrip_ascii_witness :
    Auth.parseJwt (some (js "a.eyJyb2xlIjoiY19hZG1pbiJ9.c"))
      = .ok (.obj [(js "role", .str (js "c_admin"))]) :=
  (parseJwt_roundtrip_ascii (js "\x7b\"role\":\"c_admin\"\x7d")
    (.obj [(js "role", .str (js "c_admin"))]) (js "a") (js "c")
    (by decide) rfl (by decide) (by decide)).2

/-- C2 at the object `{n: "é"}`: its JSON text parses to the object, the
base64url of the text's UTF-8 bytes is `eyJuIjoiw6kifQ`, and `parseJwt` of the
token built from it returns an object whose `n` is the two code units 195, 169
(`Ã©`) instead of the single code unit 233 (`é`). -/
theorem parseJwt_non_ascii_payload :
    JSONparse (js "\x7b\"n\":\"é\"\x7d") = .ok (.obj [(js "n", .str [233])]) ∧
    base64urlUnpadded (utf8Encode (js "\x7b\"n\":\"é\"\x7d")) = js "eyJuIjoiw6kifQ" ∧
    Auth.parseJwt
      (some (js "a" ++ js "." ++ base64urlUnpadded (utf8Encode (js "\x7b\"n\":\"é\"\x7d")) ++ js "." ++ js "c"))
      = .ok (.obj [(js "n", .str [195, 169])]) ∧
    Auth.parseJwt
      (some (js "a" ++ js "." ++ base64url (utf8Encode (js "\x7b\"n\":\"é\"\x7d")) ++ js "." ++ js "c"))
      = .ok (.obj [(js "n", .str [195, 169])]) ∧
    Json.obj [(js "n", .str [195, 169])] ≠ Json.obj [(js "n", .str [233])] :=
  ⟨rfl, by decide, rfl, rfl, by simp⟩

/-! ## The API client: responses -/

/-- C4: when `fetch` delivers a response, `request` resolves to `null` if the
status is 204, and for every other status in 200..299 it settles to what parsing
the response body as JSON gives: it resolves to the parsed value whenever the
body is a JSON text. -/
theorem request_success (ls : Storage) (fetch : Fetch) (path : JsString)
    (options : RequestOptions) (res : Response)
    (hfetch : fetch (Api.fetchCall ls path options).1 (Api.fetchCall ls path options).2 = .ok res) :
    (res.status = 204 → Api.request ls fetch path options = .ok .null) ∧
    (200 ≤ res.status → res.status ≤ 299 → res.status ≠ 204 →
      Api.request ls fetch path options = JSONparse res.body ∧
      ∀ v, JSONparse res.body = .ok v → Api.request ls fetch path options = .ok v) := by
  constructor
  · intro h204
    simp [Api.request, hfetch, Api.handleResponse, Response.ok, h204]
  · intro hlo hhi hne
    have hreq : Api.request ls fetch path options = JSONparse res.body := by
      simp [Api.request, hfetch, Api.handleResponse, Response.ok, hlo, hhi, hne, Response.json]
    exact ⟨hreq, fun v hv => hreq.trans hv⟩

/-- C4 at a 204 response and at a 200 response whose body is `[]`. -/
theorem request_success_witness :
    Api.request [] (fun _ _ => .ok ⟨204, js "No Content", js ""⟩) (js "/complaints/7") {}
      = .ok .null ∧
    Api.request [] (fun _ _ => .ok ⟨200, js "OK", js "[]"⟩) (js "/complaints") {}
      = .ok (.arr []) :=
  ⟨(request_success [] (fun _ _ => .ok ⟨204, js "No Content", js ""⟩) (js "/complaints/7") {}
      ⟨204, js "No Content", js ""⟩ rfl).1 rfl,
   ((request_success [] (fun _ _ => .ok ⟨200, js "OK", js "[]"⟩) (js "/complaints") {}
      ⟨200, js "OK", js "[]"⟩ rfl).2 (by decide) (by decide) (by decide)).2 (.arr []) rfl⟩

/-- When `fetch` delivers a response whose status is outside 200..299 and whose
body parses to a JSON value other than `null`, `request` rejects with an error
that carries the response status and the parsed body; its message is the
`detail` property of the body when that is truthy and the status text
otherwise. -/
theorem request_error_parsed (ls : Storage) (fetch : Fetch) (path : JsString)
    (options : RequestOptions) (res : Response) (v : Json)
    (hfetch : fetch (Api.fetchCall ls path options).1 (Api.fetchCall ls path options).2 = .ok res)
    (hstatus : ¬ (200 ≤ res.status ∧ res.status ≤ 299))
    (hparse : JSONparse res.body = .ok v) (hv : v ≠ .null) :
    ∃ detail, getDetail v = .ok detail ∧
      Api.request ls fetch path options =
        .error (.error (orElse detail (.str res.statusText)) (some res.status) (some v)) := by
  have hok : res.ok = false := by
    simp only [Response.ok, Bool.and_eq_false_iff, decide_eq_false_iff_not]
    by_cases h : 200 ≤ res.status
    · exact Or.inr (fun h2 => hstatus ⟨h, h2⟩)
    · exact Or.inl h
  have hd : ∃ detail, getDetail v = .ok detail := by
    cases v with
    | null => exact absurd rfl hv
    | obj members => exact ⟨_, rfl⟩
    | bool b => exact ⟨_, rfl⟩
    | num m e => exact ⟨_, rfl⟩
    | str s => exact ⟨_, rfl⟩
    | arr items => exact ⟨_, rfl⟩
  obtain ⟨detail, hdetail⟩ := hd
  refine ⟨detail, hdetail, ?_⟩
  simp only [Api.request, hfetch, Api.handleResponse, hok, Response.text, hparse, hdetail,
    Bool.not_false, if_true]

/-- The rejection for a 404 response with the body `{"detail":"Complaint not
found"}`. -/
theorem request_error_parsed_witness :
    ∃ detail, getDetail (.obj [(js "detail", .str (js "Complaint not found"))]) = .ok detail ∧
      Api.request [] (fun _ _ => .ok ⟨404, js "Not Found",
          js "\x7b\"detail\":\"Complaint not found\"\x7d"⟩) (js "/complaints/9") {} =
        .error (.error (orElse detail (.str (js "Not Found"))) (some 404)
          (some (.obj [(js "detail", .str (js "Complaint not found"))]))) :=
  request_error_parsed [] (fun _ _ => .ok ⟨404, js "Not Found",
      js "\x7b\"detail\":\"Complaint not found\"\x7d"⟩) (js "/complaints/9") {}
    ⟨404, js "Not Found", js "\x7b\"detail\":\"Complaint not found\"\x7d"⟩
    (.obj [(js "detail", .str (js "Complaint not found"))]) rfl (by decide) rfl (by simp)

/-- C5 at a 500 response whose body is the JSON text `null`: reading `detail`
of the parsed body throws, and `request` rejects with that `TypeError`, an
error without the `status` and `body` fields. -/
theorem request_null_body_type_error :
    JSONparse (js "null") = .ok .null ∧
    Api.request [] (fun _ _ => .ok ⟨500, js "Internal Server Error", js "null"⟩)
      (js "/auth/me") {} = .error .typeError :=
  ⟨rfl, rfl⟩

/-- C6: when `fetch` delivers a response whose status is outside 200..299 and
whose body text is not JSON, `request` rejects with an error whose `status` is
the response status, whose `body` is `{detail: text}`, and whose message is the
text when it is non-empty and the status text otherwise. -/
theorem request_error_non_json (ls : Storage) (fetch : Fetch) (path : JsString)
    (options : RequestOptions) (res : Response) (e : JsError)
    (hfetch : fetch (Api.fetchCall ls path options).1 (Api.fetchCall ls path options).2 = .ok res)
    (hstatus : ¬ (200 ≤ res.status ∧ res.status ≤ 299))
    (hparse : JSONparse res.body = .error e) :
    Api.request ls fetch path options =
      .error (.error (.str (if res.body ≠ [] then res.body else res.statusText))
        (some res.status) (some (.obj [(js "detail", .str res.body)]))) := by
  have hok : res.ok = false := by
    simp only [Response.ok, Bool.and_eq_false_iff, decide_eq_false_iff_not]
    by_cases h : 200 ≤ res.status
    · exact Or.inr (fun h2 => hstatus ⟨h, h2⟩)
    · exact Or.inl h
  have hlook : List.lookup (js "detail") [(js "detail", Json.str res.body)]
      = some (Json.str res.body) := by
    simp [List.lookup]
  have key : Api.request ls fetch path options =
      .error (.error (orElse (some (.str res.body)) (.str res.statusText))
        (some res.status) (some (.obj [(js "detail", .str res.body)]))) := by
    simp only [Api.request, hfetch, Api.handleResponse, hok, Response.text, hparse, getDetail,
      hlook, Bool.not_false, if_true]
  rw [key]
  by_cases hb : res.body = []
  · simp [orElse, Json.truthy, hb]
  · simp [orElse, Json.truthy, hb]

/-- C6 at a 502 response with the body `upstream down` and at a 500
response with an empty body. -/
theorem request_error_non_json_witness :
    Api.request [] (fun _ _ => .ok ⟨502, js "Bad Gateway", js "upstream down"⟩) (js "/auth/me") {}
      = .error (.error (.str (js "upstream down")) (some 502)
          (some (.obj [(js "detail", .str (js "upstream down"))]))) ∧
    Api.request [] (fun _ _ => .ok ⟨500, js "Internal Server Error", js ""⟩) (js "/auth/me") {}
      = .error (.error (.str (js "Internal Server Error")) (some 500)
          (some (.obj [(js "detail", .str (js ""))]))) :=
  ⟨request_error_non_json [] (fun _ _ => .ok ⟨502, js "Bad Gateway", js "upstream down"⟩)
      (js "/auth/me") {} ⟨502, js "Bad Gateway", js "upstream down"⟩ .syntaxError rfl
      (by decide) rfl,
   request_error_non_json [] (fun _ _ => .ok ⟨500, js "Internal Server Error", js ""⟩)
      (js "/auth/me") {} ⟨500, js "Internal Server Error", js ""⟩ .syntaxError rfl
      (by decide) rfl⟩

/-! ## The API client: headers -/

/-- Reading a property right after assigning it. -/
theorem lookup_setProp_same {α : Type} (key : JsString) (value : α) (l : List (JsString × α)) :
    List.lookup key (setProp key value l) = some value := by
  induction l with
  | nil => simp [setProp, List.lookup]
  | cons kv rest ih =>
    obtain ⟨k, v⟩ := kv
    by_cases h : k = key
    · simp [setProp, h, List.lookup]
    · have hne : (key == k) = false := by simpa using fun h2 : key = k => h h2.symm
      simp [setProp, h, List.lookup, hne, ih]

/-- Assigning one property leaves the others as they were. -/
theorem lookup_setProp_other {α : Type} (key other : JsString) (value : α)
    (l : List (JsString × α)) (hne : key ≠ other) :
    List.lookup key (setProp other value l) = List.lookup key l := by
  induction l with
  | nil =>
    have h : (key == other) = false := by simpa using hne
    simp [setProp, List.lookup, h]
  | cons kv rest ih =>
    obtain ⟨k, v⟩ := kv
    by_cases h : k = other
    · have h2 : (key == k) = false := by simpa [h] using hne
      simp [setProp, h, List.lookup, h2]
      rw [← h, h2]
    · by_cases h3 : key = k
      · simp [setProp, h, List.lookup, h3]
      · have h4 : (key == k) = false := by simpa using h3
        simp [setProp, h, List.lookup, h4, ih]

/-- A removed item reads as `null`. -/
theorem getItem_removeItem (ls : Storage) (key : JsString) :
    (ls.removeItem key).getItem key = none := by
  induction ls with
  | nil => rfl
  | cons kv rest ih =>
    obtain ⟨k, v⟩ := kv
    by_cases h : k = key
    · simpa [Storage.removeItem, List.filter, h] using ih
    · simpa [Storage.removeItem, List.filter, h, Storage.getItem] using ih

/-- The exported functions pass no `headers` to `request`. -/
theorem ApiCall.options_headers (c : ApiCall) : c.options.headers = none := by
  cases c <;> rfl

/-- Each exported function is `request` applied to its path and options. -/
theorem ApiCall.run_eq_request (ls : Storage) (fetch : Fetch) (c : ApiCall) :
    c.run ls fetch = Api.request ls fetch c.path c.options := by
  cases c <;> rfl

/-- The `Authorization` entry of the headers `request` sends. -/
theorem requestHeaders_authorization (ls : Storage) (options : RequestOptions) :
    (Api.requestHeaders ls options).lookup (js "Authorization") =
      if truthy (ls.getItem (js "access_token")) then
        some (js "Bearer " ++ (ls.getItem (js "access_token")).getD [])
      else (options.headers.getD []).lookup (js "Authorization") := by
  have hne : js "Authorization" ≠ js "Content-Type" := by decide
  unfold Api.requestHeaders Api.getToken
  by_cases ht : truthy (ls.getItem (js "access_token")) = true
  · simp only [ht, if_true, lookup_setProp_same]
  · by_cases hb : truthy options.body = true
    · simp [ht, hb]
    · simp [ht, hb, lookup_setProp_other _ _ _ _ hne]

/-- The `Content-Type` entry of the headers `request` sends. -/
theorem requestHeaders_content_type (ls : Storage) (options : RequestOptions) :
    (Api.requestHeaders ls options).lookup (js "Content-Type") =
      if truthy options.body then (options.headers.getD []).lookup (js "Content-Type")
      else some (js "application/json") := by
  have hne : js "Content-Type" ≠ js "Authorization" := by decide
  unfold Api.requestHeaders Api.getToken
  by_cases ht : truthy (ls.getItem (js "access_token")) = true
  · by_cases hb : truthy options.body = true
    · simp [ht, hb, lookup_setProp_other _ _ _ _ hne]
    · simp [ht, hb, lookup_setProp_other _ _ _ _ hne, lookup_setProp_same]
  · by_cases hb : truthy options.body = true
    · simp [ht, hb]
    · simp [ht, hb, lookup_setProp_same]

/-- C7: for every exported function of api.js and every content of the store,
the headers of the request it issues hold an `Authorization` entry exactly when
a non-empty string is stored under `access_token`, and the entry is `Bearer `
followed by that string; after `removeToken` there is no such entry. The
`getProfile` of auth.js issues a request only when such a token is stored, with
the same header. -/
theorem authorization_header (ls : Storage) (fetch : Fetch) (c : ApiCall) :
    c.run ls fetch = Api.request ls fetch c.path c.options ∧
    (c.issued ls).2.headers.lookup (js "Authorization") =
      (match ls.getItem (js "access_token") with
        | some (t :: ts) => some (js "Bearer " ++ (t :: ts))
        | _ => none) ∧
    (c.issued (Auth.removeToken ls)).2.headers.lookup (js "Authorization") = none ∧
    Auth.getProfileCall ls =
      (match ls.getItem (js "access_token") with
        | some (t :: ts) =>
          some (js "/api/auth/me", ⟨none, none, [(js "Authorization", js "Bearer " ++ (t :: ts))]⟩)
        | _ => none) ∧
    Auth.getProfileCall (Auth.removeToken ls) = none := by
  have hremoved : (Auth.removeToken ls).getItem (js "access_token") = none :=
    getItem_removeItem ls _
  refine ⟨ApiCall.run_eq_request ls fetch c, ?_, ?_, ?_, ?_⟩
  · show (Api.requestHeaders ls c.options).lookup (js "Authorization") = _
    rw [requestHeaders_authorization, ApiCall.options_headers]
    cases hg : ls.getItem (js "access_token") with
    | none => simp [truthy]
    | some t =>
      cases t with
      | nil => simp [truthy]
      | cons a as => simp [truthy]
  · show (Api.requestHeaders (Auth.removeToken ls) c.options).lookup (js "Authorization") = _
    rw [requestHeaders_authorization, ApiCall.options_headers, hremoved]
    simp [truthy]
  · unfold Auth.getProfileCall Auth.getToken
    cases hg : ls.getItem (js "access_token") with
    | none => simp [truthy]
    | some t =>
      cases t with
      | nil => simp [truthy]
      | cons a as => simp [truthy]
  · unfold Auth.getProfileCall Auth.getToken
    rw [hremoved]
    simp [truthy]

/-- C9: the headers `request` sends declare `Content-Type: application/json`
whenever the options hold no body; when they hold a non-empty body the
`Content-Type` entry is whatever the caller's own headers hold, nothing is
added. For the calls the exported functions make, the entry is
`application/json` when the function passes no body and is absent when it
passes one; each of them passes no body or a non-empty one, `addMessage` always
passes the serialized message and `markSolved` the serialized note when the note
is non-empty. -/
theorem content_type_header (ls : Storage) (path : JsString) (options : RequestOptions)
    (c : ApiCall) (id message note : JsString) :
    (options.body = none →
      (Api.fetchCall ls path options).2.headers.lookup (js "Content-Type")
        = some (js "application/json")) ∧
    (∀ b, options.body = some b → b ≠ [] →
      (Api.fetchCall ls path options).2.headers.lookup (js "Content-Type")
        = (options.headers.getD []).lookup (js "Content-Type")) ∧
    (c.issued ls).2.headers.lookup (js "Content-Type")
      = (if c.options.body = none then some (js "application/json") else none) ∧
    (c.options.body = none ∨ ∃ b, b ≠ [] ∧ c.options.body = some b) ∧
    (ApiCall.addMessage id message).options.body
      = some (JSONstringifyProperty (js "message") message) ∧
    (note ≠ [] → (ApiCall.markSolved id (some note)).options.body
      = some (JSONstringifyProperty (js "admin_response") note)) := by
  refine ⟨?_, ?_, ?_, ?_, rfl, ?_⟩
  · intro hb
    show (Api.requestHeaders ls options).lookup (js "Content-Type") = _
    rw [requestHeaders_content_type, hb]
    rfl
  · intro b hb hne
    show (Api.requestHeaders ls options).lookup (js "Content-Type") = _
    rw [requestHeaders_content_type, hb]
    cases b with
    | nil => exact absurd rfl hne
    | cons x xs => rfl
  · show (Api.requestHeaders ls c.options).lookup (js "Content-Type") = _
    rw [requestHeaders_content_type, ApiCall.options_headers]
    cases c with
    | markSolved i r =>
      cases r with
      | none => rfl
      | some t => cases t <;> rfl
    | _ => rfl
  · cases c with
    | markSolved i r =>
      cases r with
      | none => exact Or.inl rfl
      | some t =>
        cases t with
        | nil => exact Or.inl rfl
        | cons x xs => exact Or.inr ⟨_, JSONstringifyProperty_ne_nil _ _, rfl⟩
    | addMessage i m => exact Or.inr ⟨_, JSONstringifyProperty_ne_nil _ _, rfl⟩
    | _ => exact Or.inl rfl
  · intro hne
    cases note with
    | nil => exact absurd rfl hne
    | cons x xs => rfl

/-- C9 at a call without a body, at a call with the body `x`, and at
`markSolved` with the note `done`. -/
theorem content_type_header_witness :
    (Api.fetchCall [] (js "/auth/me") {}).2.headers.lookup (js "Content-Type")
      = some (js "application/json") ∧
    (Api.fetchCall [] (js "/x") { body := some (js "x") : RequestOptions }).2.headers.lookup
      (js "Content-Type") = none ∧
    (ApiCall.markSolved (js "7") (some (js "done"))).options.body
      = some (JSONstringifyProperty (js "admin_response") (js "done")) :=
  ⟨(content_type_header [] (js "/auth/me") {} .getProfile [] [] []).1 rfl,
   (content_type_header [] (js "/x") { body := some (js "x") } .getProfile [] [] []).2.1
      (js "x") rfl (by decide),
   (content_type_header [] [] {} .getProfile (js "7") [] (js "done")).2.2.2.2.2 (by decide)⟩

/-! ## The API client: paths and bodies -/

/-- A string that starts with a code unit is truthy. -/
theorem truthy_cons (c : Nat) (cs : JsString) : truthy (some (c :: cs)) = true := rfl

/-- The path `getComplaints` requests, case by case. -/
theorem getComplaintsPath_eq (department status : Option JsString) :
    Api.getComplaintsPath department status =
      (match truthy department, truthy status with
        | false, false => js "/complaints"
        | true, false => js "/complaints?department=" ++ urlencode (department.getD [])
        | false, true => js "/complaints?status_filter=" ++ urlencode (status.getD [])
        | true, true =>
          js "/complaints?department=" ++ urlencode (department.getD []) ++
            js "&status_filter=" ++ urlencode (status.getD [])) := by
  have hd : urlencode (js "department") = js "department" := by decide
  have hs : urlencode (js "status_filter") = js "status_filter" := by decide
  have hne : js "department" ≠ js "status_filter" := by decide
  have hqd : ∀ x : JsString, js "department" ++ x = 100 :: (js "epartment" ++ x) := fun x => rfl
  have hqs : ∀ x : JsString, js "status_filter" ++ x = 115 :: (js "tatus_filter" ++ x) :=
    fun x => rfl
  have h1 : js "/complaints?department=" = js "/complaints" ++ (js "?" ++ (100 :: (js "epartment" ++ js "="))) := by
    decide
  have h2 : js "/complaints?status_filter=" = js "/complaints" ++ (js "?" ++ (115 :: (js "tatus_filter" ++ js "="))) := by
    decide
  have h3 : js "&status_filter=" = js "&" ++ (115 :: (js "tatus_filter" ++ js "=")) := by
    decide
  unfold Api.getComplaintsPath
  by_cases htd : truthy department = true <;> by_cases hts : truthy status = true
  · simp only [htd, hts, if_true, URLSearchParams.set, if_neg hne, URLSearchParams.toString, hd,
      hs, List.append_assoc, hqd, hqs, truthy_cons, h1, h3, List.cons_append]
  · simp only [htd, hts, if_true, URLSearchParams.set, URLSearchParams.toString, hd,
      List.append_assoc, hqd, truthy_cons, h1, List.cons_append]
  · simp only [htd, hts, if_true, URLSearchParams.set, URLSearchParams.toString, hs,
      List.append_assoc, hqs, truthy_cons, h2, List.cons_append]
  · have htd2 : truthy department = false := by simpa using htd
    have hts2 : truthy status = false := by simpa using hts
    rw [htd2, hts2]
    simp [URLSearchParams.toString, truthy]

/-- An upper-case hexadecimal digit is never `&`, `=` or `?`. -/
theorem hexDigitUpper_not_delimiter (n : Nat) :
    hexDigitUpper n ≠ 38 ∧ hexDigitUpper n ≠ 61 ∧ hexDigitUpper n ≠ 63 := by
  unfold hexDigitUpper
  split_ifs <;> omega

/-- URL-encoded text holds none of the query delimiters `&`, `=` and `?`. -/
theorem urlencode_no_delimiter (s : JsString) (c : Nat) (hc : c ∈ urlencode s) :
    c ≠ 38 ∧ c ≠ 61 ∧ c ≠ 63 := by
  simp only [urlencode, List.mem_flatten, List.mem_map] at hc
  obtain ⟨l, ⟨b, _, hb⟩, hcl⟩ := hc
  subst hb
  unfold urlencodeByte at hcl
  split_ifs at hcl with h1 h2
  · simp at hcl; omega
  · simp only [List.mem_singleton] at hcl
    subst hcl
    simp only [isUrlencodedSafe, Bool.or_eq_true, Bool.and_eq_true, decide_eq_true_eq] at h2
    omega
  · have h := hexDigitUpper_not_delimiter (b / 16)
    have h' := hexDigitUpper_not_delimiter (b % 16)
    simp only [List.mem_cons, List.mem_singleton, List.not_mem_nil, or_false] at hcl
    rcases hcl with rfl | rfl | rfl
    · omega
    · exact h
    · exact h'

/-- No `&` occurs in a URL-encoded text. -/
theorem urlencode_no_amp (s : JsString) : 38 ∉ urlencode s :=
  fun h => (urlencode_no_delimiter s 38 h).1 rfl

/-- No `?` occurs in a URL-encoded text. -/
theorem urlencode_no_question (s : JsString) : 63 ∉ urlencode s :=
  fun h => (urlencode_no_delimiter s 63 h).2.2 rfl

/-- The parameters of the paths `getComplaints` can request. -/
theorem queryNames_complaints (d s : JsString) :
    queryNames (js "/complaints") = [] ∧
    queryNames (js "/complaints?department=" ++ urlencode d) = [js "department"] ∧
    queryNames (js "/complaints?status_filter=" ++ urlencode s) = [js "status_filter"] ∧
    queryNames (js "/complaints?department=" ++ urlencode d ++ js "&status_filter=" ++ urlencode s)
      = [js "department", js "status_filter"] := by
  have hmem : ∀ x : JsString, 63 ∈ js "/complaints?" ++ x := fun x => by
    simp [js, utf16Units]
  have hd : 38 ∉ js "department=" ++ urlencode d := by
    intro h
    rcases List.mem_append.1 h with h | h
    · exact absurd h (by decide)
    · exact urlencode_no_amp d h
  have hs : 38 ∉ js "status_filter=" ++ urlencode s := by
    intro h
    rcases List.mem_append.1 h with h | h
    · exact absurd h (by decide)
    · exact urlencode_no_amp s h
  refine ⟨by decide, ?_, ?_, ?_⟩
  · have e : js "/complaints?department=" ++ urlencode d
        = js "/complaints?" ++ (js "department=" ++ urlencode d) := by
      rw [← List.append_assoc]; rfl
    rw [e, queryNames, if_pos (hmem _)]
    show (split 38 (js "department=" ++ urlencode d)).map _ = _
    rw [split_no_sep 38 _ hd]
    rfl
  · have e : js "/complaints?status_filter=" ++ urlencode s
        = js "/complaints?" ++ (js "status_filter=" ++ urlencode s) := by
      rw [← List.append_assoc]; rfl
    rw [e, queryNames, if_pos (hmem _)]
    show (split 38 (js "status_filter=" ++ urlencode s)).map _ = _
    rw [split_no_sep 38 _ hs]
    rfl
  · have e : js "/complaints?department=" ++ urlencode d ++ js "&status_filter=" ++ urlencode s
        = js "/complaints?" ++
          ((js "department=" ++ urlencode d) ++ 38 :: (js "status_filter=" ++ urlencode s)) := by
      have e1 : js "/complaints?department=" = js "/complaints?" ++ js "department=" := by decide
      have e2 : js "&status_filter=" = 38 :: js "status_filter=" := by decide
      rw [e1, e2]
      simp only [List.append_assoc, List.cons_append]
    rw [e, queryNames, if_pos (hmem _)]
    show (split 38 ((js "department=" ++ urlencode d) ++ 38 :: (js "status_filter=" ++ urlencode s))).map _ = _
    rw [split_append_sep 38 _ _ hd, split_no_sep 38 _ hs]
    rfl

/-- C8: `getComplaints` is `request` on a path that is `/complaints` followed by
nothing when neither filter is a non-empty string, and otherwise by `?` and the
pairs `department=` (when the department is non-empty) and `status_filter=`
(when the status is non-empty), each with its value URL-encoded, joined by `&`.
So the query has a parameter named `department` exactly when the department is
non-empty, a parameter named `status_filter` exactly when the status is
non-empty, and the path holds a `?` only when one of them is; for the department
`Sanitation` alone the path is `/complaints?department=Sanitation`. -/
theorem getComplaints_path (ls : Storage) (fetch : Fetch) (department status : Option JsString) :
    Api.getComplaints ls fetch department status =
      Api.request ls fetch (Api.getComplaintsPath department status) {} ∧
    Api.getComplaintsPath department status =
      (match truthy department, truthy status with
        | false, false => js "/complaints"
        | true, false => js "/complaints?department=" ++ urlencode (department.getD [])
        | false, true => js "/complaints?status_filter=" ++ urlencode (status.getD [])
        | true, true =>
          js "/complaints?department=" ++ urlencode (department.getD []) ++
            js "&status_filter=" ++ urlencode (status.getD [])) ∧
    (js "department" ∈ queryNames (Api.getComplaintsPath department status)
      ↔ truthy department = true) ∧
    (js "status_filter" ∈ queryNames (Api.getComplaintsPath department status)
      ↔ truthy status = true) ∧
    (63 ∈ Api.getComplaintsPath department status
      ↔ (truthy department = true ∨ truthy status = true)) ∧
    Api.getComplaintsPath (some (js "Sanitation")) none = js "/complaints?department=Sanitation" := by
  have hq := queryNames_complaints (department.getD []) (status.getD [])
  simp only [List.append_assoc] at hq
  have hne1 : js "status_filter" ≠ js "department" := by decide
  have hne2 : js "department" ≠ js "status_filter" := by decide
  have hno : 63 ∉ js "/complaints" := by decide
  have hyes1 : ∀ x : JsString, 63 ∈ js "/complaints?department=" ++ x := fun x => by
    simp [js, utf16Units]
  have hyes2 : ∀ x : JsString, 63 ∈ js "/complaints?status_filter=" ++ x := fun x => by
    simp [js, utf16Units]
  refine ⟨rfl, getComplaintsPath_eq department status, ?_, ?_, ?_, by decide⟩
  all_goals rw [getComplaintsPath_eq]
  all_goals
    cases htd : truthy department <;> cases hts : truthy status <;>
      simp [hq, hne1, hne2, hno, hyes1, hyes2, List.append_assoc]

/-- C10: `markSolved(id, note)` ends in a `fetch` of
`/api/admin/complaints/{id}/solve` (the path `/admin/complaints/{id}/solve`
under `API_BASE`) with the method `PUT`. When the note is a non-empty string the
body is the text `{"admin_response":` followed by the quoted note and `}`, which
`JSON.parse` reads back as the object `{admin_response: note}`; when the note is
omitted or empty there is no body. -/
theorem markSolved_request (ls : Storage) (fetch : Fetch) (id : JsString)
    (admin_response : Option JsString) :
    Api.markSolved ls fetch id admin_response =
      (match fetch ((ApiCall.markSolved id admin_response).issued ls).1
          ((ApiCall.markSolved id admin_response).issued ls).2 with
        | .error e => .error e
        | .ok res => Api.handleResponse res) ∧
    ((ApiCall.markSolved id admin_response).issued ls).1 =
      Api.API_BASE ++ (js "/admin/complaints/" ++ id ++ js "/solve") ∧
    ((ApiCall.markSolved id admin_response).issued ls).1 =
      js "/api/admin/complaints/" ++ id ++ js "/solve" ∧
    ((ApiCall.markSolved id admin_response).issued ls).2.method = some (js "PUT") ∧
    ((ApiCall.markSolved id admin_response).issued ls).2.body =
      (match admin_response with
        | some (c :: cs) =>
          some (js "\x7b\"admin_response\":" ++ quoteJSONString (c :: cs) ++ js "\x7d")
        | _ => none) ∧
    (∀ note, note ≠ [] → admin_response = some note →
      ∃ text, ((ApiCall.markSolved id admin_response).issued ls).2.body = some text ∧
        JSONparse text = .ok (.obj [(js "admin_response", .str note)])) := by
  refine ⟨rfl, rfl, ?_, rfl, ?_, ?_⟩
  · show Api.API_BASE ++ (js "/admin/complaints/" ++ id ++ js "/solve") = _
    have h : js "/api/admin/complaints/" = Api.API_BASE ++ js "/admin/complaints/" := by decide
    rw [h]
    simp only [List.append_assoc]
  · show Api.markSolvedBody admin_response = _
    cases admin_response with
    | none => rfl
    | some t =>
      cases t with
      | nil => rfl
      | cons c cs =>
        have h : js "\x7b\"admin_response\":" = js "\x7b" ++ quoteJSONString (js "admin_response") ++ js ":" := by
          decide
        simp only [Api.markSolvedBody, truthy, if_true, Option.getD_some, JSONstringifyProperty, h]
  · intro note hne hsome
    subst hsome
    refine ⟨JSONstringifyProperty (js "admin_response") note, ?_, JSONparse_stringifyProperty _ _⟩
    show Api.markSolvedBody (some note) = _
    cases note with
    | nil => exact absurd rfl hne
    | cons c cs => rfl

/-- C10 at the complaint `7` with the note `done`. -/
theorem markSolved_request_witness :
    ∃ text, ((ApiCall.markSolved (js "7") (some (js "done"))).issued []).2.body = some text ∧
      JSONparse text = .ok (.obj [(js "admin_response", .str (js "done"))]) :=
  (markSolved_request [] (fun _ _ => .error .networkError) (js "7") (some (js "done"))).2.2.2.2.2
    (js "done") (by decide) rfl

/-! ## The JWT decoder: padding -/

/-- Translating characters keeps the length. -/
theorem replaceAll_length (x y : Nat) (s : JsString) : (replaceAll x y s).length = s.length := by
  simp [replaceAll]

/-- C13: for a middle segment of length `n`, the text `parseJwt` hands to `atob`
is the segment with `-` turned into `+` and `_` into `/`, followed by
`(4 - n mod 4) mod 4` characters `=`. That number is between 0 and 3, the
length of the text is a multiple of 4, and a segment whose length is a multiple
of 4 gets no padding. This text is what `atob` receives for every token of
three segments. -/
theorem padded_multiple_of_four (payload : JsString) :
    Auth.padded payload =
      replaceAll 95 47 (replaceAll 45 43 payload) ++
        List.replicate ((4 - payload.length % 4) % 4) 61 ∧
    (4 - payload.length % 4) % 4 ≤ 3 ∧
    (Auth.padded payload).length = payload.length + (4 - payload.length % 4) % 4 ∧
    (Auth.padded payload).length % 4 = 0 ∧
    (payload.length % 4 = 0 →
      Auth.padded payload = replaceAll 95 47 (replaceAll 45 43 payload)) ∧
    (∀ h s : JsString, 46 ∉ h → 46 ∉ payload → 46 ∉ s →
      Auth.parseJwt (some (h ++ 46 :: (payload ++ 46 :: s))) =
        tryCatch
          (match atob (Auth.padded payload) with
            | .error e => .error e
            | .ok json => JSONparse json)
          (fun _ => .ok .null)) := by
  have hjs : js "=" = [61] := rfl
  have e : Auth.padded payload =
      replaceAll 95 47 (replaceAll 45 43 payload) ++
        List.replicate ((4 - payload.length % 4) % 4) 61 := by
    simp only [Auth.padded, replaceAll_length, hjs, strRepeat_singleton]
  have hlen : (Auth.padded payload).length = payload.length + (4 - payload.length % 4) % 4 := by
    rw [e, List.length_append, List.length_replicate, replaceAll_length, replaceAll_length]
  refine ⟨e, by omega, hlen, by omega, ?_, ?_⟩
  · intro h0
    rw [e, h0]
    simp
  · intro h s hh hp hs
    exact parseJwt_three_segments h payload s hh hp hs

/-- C13 at the segment `eyJyb2xlIjoiY19hZG1pbiJ9`, whose length 24 is a multiple
of 4 and which holds no `-` or `_`: it reaches `atob` unchanged. -/
theorem padded_multiple_of_four_witness :
    Auth.padded (js "eyJyb2xlIjoiY19hZG1pbiJ9") = js "eyJyb2xlIjoiY19hZG1pbiJ9" :=
  (padded_multiple_of_four (js "eyJyb2xlIjoiY19hZG1pbiJ9")).2.2.2.2.1 (by decide)

/-! ## The token store -/

/-- An item that was just set reads as the value set. -/
theorem getItem_setItem (ls : Storage) (key value : JsString) :
    (ls.setItem key value).getItem key = some value := by
  induction ls with
  | nil => simp [Storage.setItem, setProp, Storage.getItem]
  | cons kv rest ih =>
    obtain ⟨k, v⟩ := kv
    by_cases h : k = key
    · simp [Storage.setItem, setProp, Storage.getItem, h]
    · simp only [Storage.setItem] at ih
      simp [Storage.setItem, setProp, Storage.getItem, h, ih]

/-- Running a sequence that ends in one more call. -/
theorem TokenOp.run_concat (ls : Storage) (ops : List TokenOp) (op : TokenOp) :
    TokenOp.run ls (ops ++ [op]) = op.apply (TokenOp.run ls ops) := by
  simp [TokenOp.run, List.foldl_append]

/-- C14: after any sequence of `saveToken` and `removeToken` calls, `getToken` of
auth.js and `getToken` of api.js return the same value: the string of the most
recent `saveToken` when no `removeToken` came after it, `null` when the last
call was `removeToken`, and `null` when no `saveToken` was ever made on a store
that held no `access_token`. -/
theorem token_store (ls : Storage) (ops : List TokenOp) :
    Api.getToken (TokenOp.run ls ops) = Auth.getToken (TokenOp.run ls ops) ∧
    (∀ pre post t, ops = pre ++ TokenOp.saveToken t :: post →
      (∀ t2, TokenOp.saveToken t2 ∉ post) → TokenOp.removeToken ∉ post →
      Auth.getToken (TokenOp.run ls ops) = some t) ∧
    (∀ pre, ops = pre ++ [TokenOp.removeToken] →
      Auth.getToken (TokenOp.run ls ops) = none) ∧
    ((∀ t, TokenOp.saveToken t ∉ ops) → ls.getItem (js "access_token") = none →
      Auth.getToken (TokenOp.run ls ops) = none) := by
  have hremove : ∀ pre, Auth.getToken (TokenOp.run ls (pre ++ [TokenOp.removeToken])) = none := by
    intro pre
    rw [TokenOp.run_concat]
    exact getItem_removeItem _ _
  refine ⟨rfl, ?_, ?_, ?_⟩
  · intro pre post t hops hsave hrem
    have hpost : post = [] := by
      cases post with
      | nil => rfl
      | cons o os =>
        cases o with
        | saveToken t2 => exact absurd (List.mem_cons_self _ _) (hsave t2)
        | removeToken => exact absurd (List.mem_cons_self _ _) hrem
    subst hpost
    subst hops
    rw [TokenOp.run_concat]
    exact getItem_setItem _ _ _
  · intro pre hops
    subst hops
    exact hremove pre
  · intro hnone hls
    rcases List.eq_nil_or_concat ops with h | ⟨pre, o, h⟩
    · subst h
      exact hls
    · subst h
      cases o with
      | saveToken t => exact absurd (by simp) (hnone t)
      | removeToken => simpa using hremove pre

/-- C14 at the sequence save `a`, remove, save `b`, at that sequence followed by
a remove, and at no call on an empty store. -/
theorem token_store_witness :
    Auth.getToken (TokenOp.run [] [.saveToken (js "a"), .removeToken, .saveToken (js "b")])
      = some (js "b") ∧
    Auth.getToken
      (TokenOp.run [] [.saveToken (js "a"), .removeToken, .saveToken (js "b"), .removeToken])
      = none ∧
    Auth.getToken (TokenOp.run [] []) = none :=
  ⟨(token_store [] [.saveToken (js "a"), .removeToken, .saveToken (js "b")]).2.1
      [.saveToken (js "a"), .removeToken] [] (js "b") rfl (by simp) (by simp),
   (token_store [] [.saveToken (js "a"), .removeToken, .saveToken (js "b"), .removeToken]).2.2.1
      [.saveToken (js "a"), .removeToken, .saveToken (js "b")] rfl,
   (token_store [] []).2.2.2 (by simp) rfl⟩

/-! ## The list page: complaint cards -/

/-- C15: the complaint card is the thumbnail, if any, and a body whose third
child is the paragraph
`complaint-snippet` whose text is the description itself when the description
has at most 150 code units and otherwise its first 147 code units followed by
`...`; the snippet never has more than 150 code units, and a description of
exactly 150 is shown unchanged. -/
theorem snippet_at_most_150 (c : Complaint) (d : JsString) :
    Home.renderComplaintCard c =
      .mk (js "div") (js "complaint-card") [] [] []
        ((if truthy c.image_url then
            [.mk (js "img") (js "complaint-thumb") []
              [(js "src", c.image_url.getD []), (js "alt", c.title)] [] []]
          else []) ++
          [.mk (js "div") (js "complaint-body") [] [] []
            [.mk (js "h3") [] c.title [] [] [],
              .mk (js "div") (js "complaint-meta") [] [] []
                [.mk (js "span") (js "complaint-department") c.department [] [] [],
                  .mk (js "span") (js "complaint-status") c.status [] [] [],
                  .mk (js "span") (js "complaint-created") c.createdAt [] [] []],
              .mk (js "p") (js "complaint-snippet") (Home.snippetText c.description) [] [] [],
              .mk (js "div") (js "complaint-actions") [] [] []
                [.mk (js "a") (js "btn btn-view") (js "View")
                  [(js "href", js "complaint_details.html?id=" ++ c.id)] [] []]]]) ∧
    (d.length ≤ 150 → Home.snippetText d = d) ∧
    (150 < d.length → Home.snippetText d = d.take 147 ++ js "...") ∧
    (Home.snippetText d).length ≤ 150 ∧
    (d.length = 150 → Home.snippetText d = d) := by
  have hle : d.length ≤ 150 → Home.snippetText d = d := by
    intro h
    simp [Home.snippetText, Nat.not_lt.2 h]
  have hgt : 150 < d.length → Home.snippetText d = d.take 147 ++ js "..." := by
    intro h
    simp [Home.snippetText, h, slice]
  refine ⟨?_, hle, hgt, ?_, fun h => hle (Nat.le_of_eq h)⟩
  · cases himg : truthy c.image_url
    · simp only [Home.renderComplaintCard, himg, Bool.false_eq_true, if_false, List.nil_append]
      rfl
    · simp only [Home.renderComplaintCard, himg, if_true, List.singleton_append]
      rfl
  · by_cases h : d.length ≤ 150
    · rw [hle h]; exact h
    · rw [hgt (by omega)]
      have h3 : (js "...").length = 3 := rfl
      rw [List.length_append, List.length_take, h3]
      omega

/-- C15 at a description of 150 code units and at one of 151. -/
theorem snippet_at_most_150_witness :
    Home.snippetText (List.replicate 150 97) = List.replicate 150 97 ∧
    Home.snippetText (List.replicate 151 97) = List.replicate 147 97 ++ js "..." :=
  ⟨(snippet_at_most_150 ⟨[], [], [], [], [], [], none⟩ (List.replicate 150 97)).2.2.2.2
      (by simp),
   by
    have h := (snippet_at_most_150 ⟨[], [], [], [], [], [], none⟩ (List.replicate 151 97)).2.2.1
      (by simp)
    simpa using h⟩

/-! ## The detail page: admin controls -/

/-- The comparison with a string holds for that string only. -/
theorem strictEqualsString_iff (v : Option Json) (s : JsString) :
    strictEqualsString v s = true ↔ v = some (.str s) := by
  unfold strictEqualsString
  split
  · next t => simp
  · next h =>
    constructor
    · intro h2; exact absurd h2 (by decide)
    · intro h2; exact absurd h2 (h s)

/-- The container `showAdminControls` leaves behind: its text and children are
replaced by the controls of the `cm_admin` branch followed by those of the
`c_admin` branch. -/
theorem showAdminControls_eq (tag cls text : JsString) (attrs : List (JsString × JsString))
    (listeners : List (JsString × Handler)) (children : List Element) (profile : Json)
    (role : Option Json) (complaintId : JsString)
    (hrole : getProperty profile (js "role_name") = .ok role) :
    Detail.showAdminControls (some (.mk tag cls text attrs listeners children)) profile complaintId =
      .ok (some (.mk tag cls [] attrs listeners
        ((if strictEqualsString role (js "cm_admin") then
            [.mk (js "button") (js "btn") (js "Mark In Progress") []
                [(js "click", .inProgressClick complaintId)] [],
              .mk (js "div") (js "msg-box") [] [] []
                [.mk (js "textarea") [] [] [(js "placeholder", js "Add a message...")] [] [],
                  .mk (js "button") (js "btn") (js "Send") []
                    [(js "click", .sendClick complaintId)] []]]
          else []) ++
          (if strictEqualsString role (js "c_admin") then
            [.mk (js "textarea") [] [] [(js "placeholder", js "Optional resolution note")] [] [],
              .mk (js "button") (js "btn btn-solve") (js "Mark Solved") []
                [(js "click", .solveClick complaintId)] []]
          else [])))) := by
  simp only [Detail.showAdminControls, hrole, bind, Except.bind, pure, Except.pure]
  cases strictEqualsString role (js "cm_admin") <;> cases strictEqualsString role (js "c_admin") <;>
    rfl

/-- C11: what `showAdminControls` renders depends on the profile through its
`role_name` only. In the container `admin-controls`, emptied first, a profile
whose role is `cm_admin` gets exactly the button `Mark In Progress` and the
message box (textarea and button `Send`), whose listeners start with
`markInProgress` and `addMessage`; a profile whose role is `c_admin` gets exactly
the note textarea and the button `Mark Solved`, whose listener starts with
`markSolved`; any other role gets nothing. No role gets a listener of each
kind, and a page without the container gets no controls at all. -/
theorem showAdminControls_by_role (controls : Element) (profile : Json) (role : Option Json)
    (complaintId value : JsString)
    (hrole : getProperty profile (js "role_name") = .ok role) :
    Detail.showAdminControls none profile complaintId = .ok none ∧
    ∃ rendered,
      Detail.showAdminControls (some controls) profile complaintId = .ok (some rendered) ∧
      rendered.clearInnerHTML = controls.clearInnerHTML ∧
      rendered.textContent = [] ∧
      (role = some (.str (js "cm_admin")) →
        rendered.children =
          [.mk (js "button") (js "btn") (js "Mark In Progress") []
              [(js "click", .inProgressClick complaintId)] [],
            .mk (js "div") (js "msg-box") [] [] []
              [.mk (js "textarea") [] [] [(js "placeholder", js "Add a message...")] [] [],
                .mk (js "button") (js "btn") (js "Send") []
                  [(js "click", .sendClick complaintId)] []]] ∧
        (Element.handlersOfList rendered.children).filterMap (Handler.firstCall value) =
          [.markInProgress complaintId, .addMessage complaintId value]) ∧
      (role = some (.str (js "c_admin")) →
        rendered.children =
          [.mk (js "textarea") [] [] [(js "placeholder", js "Optional resolution note")] [] [],
            .mk (js "button") (js "btn btn-solve") (js "Mark Solved") []
              [(js "click", .solveClick complaintId)] []] ∧
        (Element.handlersOfList rendered.children).filterMap (Handler.firstCall value) =
          [.markSolved complaintId (some value)]) ∧
      (role ≠ some (.str (js "cm_admin")) → role ≠ some (.str (js "c_admin")) →
        rendered.children = []) ∧
      (∀ profile2, getProperty profile2 (js "role_name") = .ok role →
        Detail.showAdminControls (some controls) profile2 complaintId = .ok (some rendered)) ∧
      ¬ ((Handler.inProgressClick complaintId ∈ Element.handlersOfList rendered.children ∨
            Handler.sendClick complaintId ∈ Element.handlersOfList rendered.children) ∧
          Handler.solveClick complaintId ∈ Element.handlersOfList rendered.children) := by
  rcases controls with ⟨tag, cls, text, attrs, ls, ch⟩
  have key := showAdminControls_eq tag cls text attrs ls ch profile role complaintId hrole
  have key2 := fun p2 h2 => showAdminControls_eq tag cls text attrs ls ch p2 role complaintId h2
  have i1 := strictEqualsString_iff role (js "cm_admin")
  have i2 := strictEqualsString_iff role (js "c_admin")
  have hne : (some (Json.str (js "cm_admin")) : Option Json) ≠ some (.str (js "c_admin")) := by
    intro h
    injection h with h
    injection h with h
    exact absurd h (by decide)
  refine ⟨rfl, _, key, ?_⟩
  clear key
  cases hb1 : strictEqualsString role (js "cm_admin") <;>
    cases hb2 : strictEqualsString role (js "c_admin") <;>
    rw [hb1] at i1 <;> rw [hb2] at i2
  · refine ⟨rfl, rfl, ?_, ?_, fun _ _ => rfl, ?_, ?_⟩
    · intro h; exact absurd (i1.2 h) (by decide)
    · intro h; exact absurd (i2.2 h) (by decide)
    · intro p2 h2; rw [key2 p2 h2, hb1, hb2]
    · rintro ⟨_, h⟩
      exact absurd h (by simp [Element.children, Element.handlersOfList])
  · refine ⟨rfl, rfl, ?_, fun _ => ⟨rfl, rfl⟩, ?_, ?_, ?_⟩
    · intro h; exact absurd (i1.2 h) (by decide)
    · intro _ h; exact absurd (i2.1 rfl) h
    · intro p2 h2; rw [key2 p2 h2, hb1, hb2]
    · rintro ⟨h | h, _⟩
      · exact absurd h (by simp [Element.children, Element.handlersOfList, Element.handlers])
      · exact absurd h (by simp [Element.children, Element.handlersOfList, Element.handlers])
  · refine ⟨rfl, rfl, fun _ => ⟨rfl, rfl⟩, ?_, ?_, ?_, ?_⟩
    · intro h; exact absurd (i2.2 h) (by decide)
    · intro h; exact absurd (i1.1 rfl) h
    · intro p2 h2; rw [key2 p2 h2, hb1, hb2]
    · rintro ⟨_, h⟩
      exact absurd h (by simp [Element.children, Element.handlersOfList, Element.handlers])
  · exact absurd ((i1.1 rfl).symm.trans (i2.1 rfl)) hne

/-- C11 at a profile with the role `cm_admin` and a name, for the complaint `7`:
the container holds the button and the message box. -/
theorem showAdminControls_by_role_witness :
    ∃ rendered,
      Detail.showAdminControls (some (el (js "div") [(js "id", js "admin-controls")]))
        (.obj [(js "name", .str (js "x")), (js "role_name", .str (js "cm_admin"))]) (js "7")
        = .ok (some rendered) ∧
      rendered.children =
        [.mk (js "button") (js "btn") (js "Mark In Progress") []
            [(js "click", .inProgressClick (js "7"))] [],
          .mk (js "div") (js "msg-box") [] [] []
            [.mk (js "textarea") [] [] [(js "placeholder", js "Add a message...")] [] [],
              .mk (js "button") (js "btn") (js "Send") []
                [(js "click", .sendClick (js "7"))] []]] := by
  obtain ⟨_, rendered, h1, _, _, h4, _⟩ :=
    showAdminControls_by_role (el (js "div") [(js "id", js "admin-controls")])
      (.obj [(js "name", .str (js "x")), (js "role_name", .str (js "cm_admin"))])
      (some (.str (js "cm_admin"))) (js "7") [] rfl
  exact ⟨rendered, h1, (h4 rfl).1⟩

/-! ## The page controllers: poll intervals -/

/-- Running a handler leaves `pollHandle` as it is. -/
theorem Handler.runOn_pollHandle (h : Handler) (p : Page) : (h.runOn p).pollHandle = p.pollHandle := by
  cases h <;> try rfl
  simp only [Handler.runOn]
  split
  · split <;> rfl
  · rfl

/-- Running the listeners of an event leaves `pollHandle` as it is. -/
theorem foldl_runOn_pollHandle (ls : List (JsString × JsString × Handler)) (p : Page) :
    (ls.foldl (fun q l => l.2.2.runOn q) p).pollHandle = p.pollHandle := by
  induction ls generalizing p with
  | nil => rfl
  | cons l rest ih => rw [List.foldl_cons, ih, Handler.runOn_pollHandle]

/-- The `beforeunload` listener of the detail page clears the interval that
`pollHandle` names. -/
theorem clearPoll_clears (q : Page) (h : Nat) (hq : q.pollHandle = some h) (h0 : h ≠ 0) :
    ∀ t ∈ (Handler.clearPoll.runOn q).timers, t.handle ≠ h := by
  intro t ht
  simp only [Handler.runOn, hq] at ht
  rw [if_pos h0] at ht
  simp only [Page.clearInterval] at ht
  simpa using (List.mem_filter.1 ht).2

/-- The detail page clears its poll: `DOMContentLoaded` starts the 10000 ms
interval and adds a `beforeunload` listener, and once `beforeunload` has fired
no active interval has the handle of that poll. -/
theorem detail_poll_cleared (p : Page) :
    (⟨p.lastHandle + 1, .loadComplaint, 10000⟩ : Timer) ∈ (Detail.onDOMContentLoaded p).timers ∧
    (js "window", js "beforeunload", Handler.clearPoll) ∈ (Detail.onDOMContentLoaded p).listeners ∧
    ∀ t ∈ ((Detail.onDOMContentLoaded p).dispatch (js "window") (js "beforeunload")).timers,
      t.handle ≠ p.lastHandle + 1 := by
  refine ⟨?_, ?_, ?_⟩
  · simp [Detail.onDOMContentLoaded, Page.setInterval, Page.addEventListener, Handler.runOn]
  · simp [Detail.onDOMContentLoaded, Page.setInterval, Page.addEventListener, Handler.runOn]
  · intro t ht
    have hl : (Detail.onDOMContentLoaded p).listeners
        = p.listeners ++ [(js "window", js "beforeunload", Handler.clearPoll)] := rfl
    have hp : (Detail.onDOMContentLoaded p).pollHandle = some (p.lastHandle + 1) := rfl
    unfold Page.dispatch at ht
    rw [hl, List.filter_append] at ht
    have hf : [(js "window", js "beforeunload", Handler.clearPoll)].filter
        (fun l => decide (l.1 = js "window" ∧ l.2.1 = js "beforeunload"))
        = [(js "window", js "beforeunload", Handler.clearPoll)] := by
      simp
    rw [hf, List.foldl_append] at ht
    simp only [List.foldl_cons, List.foldl_nil] at ht
    have hq := foldl_runOn_pollHandle
      (p.listeners.filter (fun l => decide (l.1 = js "window" ∧ l.2.1 = js "beforeunload")))
      (Detail.onDOMContentLoaded p)
    rw [hp] at hq
    exact clearPoll_clears _ _ hq (Nat.succ_ne_zero _) t ht

/-- The list page adds no listener to `window`: when its `DOMContentLoaded`
listener completes, the 15000 ms interval is active and the listeners on
`window` are those that were there before. -/
theorem home_adds_no_window_listener (p p1 : Page) (h : Home.onDOMContentLoaded p = .ok p1) :
    (⟨p.lastHandle + 1, .loadComplaints, 15000⟩ : Timer) ∈ p1.timers ∧
    p1.listeners.filter (fun l => l.1 = js "window")
      = p.listeners.filter (fun l => l.1 = js "window") := by
  unfold Home.onDOMContentLoaded at h
  split at h
  · cases h
  · simp only at h
    split at h
    · cases h
    · injection h with h
      subst h
      constructor
      · simp [Page.setInterval, Page.addEventListener, Handler.runOn]
      · have h1 : (js "filter-department" = js "window") = False := by simp; decide
        have h2 : (js "filter-status" = js "window") = False := by simp; decide
        simp [Page.setInterval, Page.addEventListener, Handler.runOn, List.filter_append, h1, h2]

/-- C12 at the list page with its two filters and no timer yet: after
`DOMContentLoaded` of home.js the 15000 ms interval is active and `window` has no
listener, so it is still active after `beforeunload`, `unload` or `pagehide`
has fired; on the same page, the 10000 ms interval of complaint_details.js is
gone after `beforeunload`. -/
theorem home_poll_not_cleared :
    Home.onDOMContentLoaded ⟨[js "filter-department", js "filter-status"], [], 0, [], none⟩ =
      .ok ⟨[js "filter-department", js "filter-status"], [⟨1, .loadComplaints, 15000⟩], 1,
        [(js "filter-department", js "change", .loadComplaints),
          (js "filter-status", js "change", .loadComplaints)], none⟩ ∧
    (Page.dispatch ⟨[js "filter-department", js "filter-status"], [⟨1, .loadComplaints, 15000⟩], 1,
        [(js "filter-department", js "change", .loadComplaints),
          (js "filter-status", js "change", .loadComplaints)], none⟩
      (js "window") (js "beforeunload")).timers = [⟨1, .loadComplaints, 15000⟩] ∧
    (Page.dispatch ⟨[js "filter-department", js "filter-status"], [⟨1, .loadComplaints, 15000⟩], 1,
        [(js "filter-department", js "change", .loadComplaints),
          (js "filter-status", js "change", .loadComplaints)], none⟩
      (js "window") (js "unload")).timers = [⟨1, .loadComplaints, 15000⟩] ∧
    (Page.dispatch ⟨[js "filter-department", js "filter-status"], [⟨1, .loadComplaints, 15000⟩], 1,
        [(js "filter-department", js "change", .loadComplaints),
          (js "filter-status", js "change", .loadComplaints)], none⟩
      (js "window") (js "pagehide")).timers = [⟨1, .loadComplaints, 15000⟩] ∧
    (Page.dispatch
      (Detail.onDOMContentLoaded ⟨[js "filter-department", js "filter-status"], [], 0, [], none⟩)
      (js "window") (js "beforeunload")).timers = [] :=
  ⟨rfl, rfl, rfl, rfl, rfl⟩

end Complaints
